import Mathlib

/-!
Verification of the pwnflow snapshot export/import engine.

Shallow embedding of `backend/services/import_service.py`,
`backend/services/export_service.py` and
`backend/services/legacy_import_service.py` (plus the pydantic schemas in
`backend/schemas/legacy_import.py`), with theorems settling the spec's
claims about identifier remapping, the encrypted container codec, template
redaction, container validation, merge mode, legacy-import resilience and
progress reporting.

Conventions of the embedding:
* Python `str` is `String`; byte strings are `List Nat`.
* A Python `dict` used as a mutable map (`uuid_map`) is modelled by its
  ordered trace of writes, `List (String × String)`; lookup returns the
  value of the LAST write of a key, matching Python assignment semantics.
* `uuid.uuid4()` is modelled by a supply `gen : Nat → String`: the k-th
  call of the run returns `gen k`.  Freshness/distinctness of the random
  UUIDs is an explicit hypothesis where a theorem needs it.
* Entity dicts are modelled as structures holding the fields the
  import/export pipeline reads (`id` and the reference fields); scalar
  payload fields that the pipeline merely copies are not modelled.
-/

namespace Pwnflow

/-! ## Snapshot data model (the decoded `data.json` payload)

`import_service.generate_uuid_map` / `rewrite_uuids` operate on the decoded
payload dict with keys `nodes`, `relationships`, `contexts`, `commands`,
`variables`, `findings`, `scope_assets`, `tags`, and `project` or
`template`. -/

/-- A node record of the payload: `node["id"]` is a mandatory key, and
`node.get("parent_id")` an optional reference. -/
structure PNode where
  id : String
  parent_id : Option String := none
  tags : List String := []
  deriving Repr, DecidableEq

/-- A relationship record: `rel["source"]` and `rel["target"]` are mandatory. -/
structure PRel where
  source : String
  target : String
  deriving Repr, DecidableEq

/-- A context record: `context["id"]` is mandatory. -/
structure PContext where
  id : String
  deriving Repr, DecidableEq

/-- A command record: `command["id"]` mandatory, `command.get("node_id")`
optional. -/
structure PCommand where
  id : String
  node_id : Option String := none
  deriving Repr, DecidableEq

/-- A variable record: `variable["id"]` mandatory, `variable.get("context_id")`
optional. -/
structure PVariable where
  id : String
  context_id : Option String := none
  deriving Repr, DecidableEq

/-- A finding record: `finding["id"]` mandatory, `finding.get("node_id")`
optional. -/
structure PFinding where
  id : String
  node_id : Option String := none
  deriving Repr, DecidableEq

/-- A scope asset record: `scope_asset["id"]` mandatory. -/
structure PScopeAsset where
  id : String
  tags : List String := []
  deriving Repr, DecidableEq

/-- The `"project"` info dict of a project payload. -/
structure ProjInfo where
  name : String
  description : Option String := none
  layout_direction : Option String := none
  category_tags : Option (List String) := none
  deriving Repr, DecidableEq

/-- The `"template"` info dict of a template payload.  An exported template
carries an `is_public` field (see `export_service._fetch_template_data`). -/
structure TmplInfo where
  name : String
  description : Option String := none
  category_tags : Option (List String) := none
  is_public : Option Bool := none
  deriving Repr, DecidableEq

/-- The decoded payload dict.  `data.get(key, [])` on an absent collection is
the empty list, so collections default to `[]`; `project` / `template` model
the presence of those keys. -/
structure ImportData where
  nodes : List PNode := []
  relationships : List PRel := []
  contexts : List PContext := []
  commands : List PCommand := []
  variables_ : List PVariable := []
  findings : List PFinding := []
  scope_assets : List PScopeAsset := []
  tags : List String := []
  project : Option ProjInfo := none
  template : Option TmplInfo := none
  deriving Repr, DecidableEq

/-- Lookup in a Python dict modelled by its write trace: the value of the
last write of the key, or `none` when the key was never written. -/
def dictGet (writes : List (String × String)) (k : String) : Option String :=
  (writes.filter (fun p => p.1 = k)).getLast?.map (fun p => p.2)

/-- Membership test `k in uuid_map`. -/
def dictMem (writes : List (String × String)) (k : String) : Bool :=
  (dictGet writes k).isSome

/-- The entity ids of the payload, in the order `generate_uuid_map` visits
them: nodes, contexts, commands, variables, findings, scope assets. -/
def entityIds (data : ImportData) : List String :=
  data.nodes.map (fun n => n.id) ++ data.contexts.map (fun c => c.id)
    ++ data.commands.map (fun c => c.id) ++ data.variables_.map (fun v => v.id)
    ++ data.findings.map (fun f => f.id) ++ data.scope_assets.map (fun a => a.id)

/-- `import_service.generate_uuid_map`, as its ordered trace of dict writes:
the six loops perform, for each entity in visit order, the assignment
`uuid_map[old_id] = str(uuid.uuid4())`; the k-th entity gets the k-th fresh
UUID `gen k`.  The resulting dict is read through `dictGet`. -/
def generate_uuid_map (gen : Nat → String) (data : ImportData) :
    List (String × String) :=
  (entityIds data).enum.map (fun p => (p.2, gen p.1))

/-- `import_service.rewrite_uuids`.  Mandatory-key accesses
`uuid_map[e["id"]]` raise `KeyError` when absent, modelled as `Except`;
optional reference fields are rewritten only under the source's guard
`e.get(field) and e[field] in uuid_map` (Python truthiness: `None` and the
empty string are falsy), otherwise left unchanged. -/
def rewriteRef (m : List (String × String)) (r : Option String) : Option String :=
  match r with
  | none => none
  | some v => if v ≠ "" ∧ dictMem m v then dictGet m v else some v

/-- Mandatory lookup `uuid_map[k]`: `KeyError` when the key is absent. -/
def dictGetMandatory (m : List (String × String)) (k : String) :
    Except String String :=
  match dictGet m k with
  | some v => Except.ok v
  | none => Except.error ("KeyError: " ++ k)

/-- Rewrite a guarded relationship endpoint: `if rel[f] in uuid_map:
rel[f] = uuid_map[rel[f]]`, else the endpoint stays. -/
def rewriteEndpoint (m : List (String × String)) (v : String) : String :=
  if dictMem m v then (dictGet m v).getD v else v

/-- Traverse a list with a fallible element function (the Python `for` loop
whose body may raise). -/
def mapExcept {α β : Type} (f : α → Except String β) :
    List α → Except String (List β)
  | [] => Except.ok []
  | a :: as =>
    match f a with
    | Except.error e => Except.error e
    | Except.ok b =>
      match mapExcept f as with
      | Except.error e => Except.error e
      | Except.ok bs => Except.ok (b :: bs)

/-- Body of the node loop of `rewrite_uuids`: `node["id"] =
uuid_map[node["id"]]`, then the guarded `parent_id` update. -/
def nodeStep (m : List (String × String)) (n : PNode) : Except String PNode :=
  match dictGetMandatory m n.id with
  | Except.error e => Except.error e
  | Except.ok newId =>
      Except.ok { n with id := newId, parent_id := rewriteRef m n.parent_id }

/-- Body of the relationship loop of `rewrite_uuids`: each endpoint is
rewritten only when present in the map, else left as it was. -/
def relStep (m : List (String × String)) (r : PRel) : PRel :=
  { r with source := rewriteEndpoint m r.source,
           target := rewriteEndpoint m r.target }

/-- Body of the context loop of `rewrite_uuids`. -/
def ctxStep (m : List (String × String)) (c : PContext) : Except String PContext :=
  match dictGetMandatory m c.id with
  | Except.error e => Except.error e
  | Except.ok newId => Except.ok { c with id := newId }

/-- Body of the command loop of `rewrite_uuids`. -/
def cmdStep (m : List (String × String)) (c : PCommand) : Except String PCommand :=
  match dictGetMandatory m c.id with
  | Except.error e => Except.error e
  | Except.ok newId =>
      Except.ok { c with id := newId, node_id := rewriteRef m c.node_id }

/-- Body of the variable loop of `rewrite_uuids`. -/
def varStep (m : List (String × String)) (v : PVariable) : Except String PVariable :=
  match dictGetMandatory m v.id with
  | Except.error e => Except.error e
  | Except.ok newId =>
      Except.ok { v with id := newId, context_id := rewriteRef m v.context_id }

/-- Body of the finding loop of `rewrite_uuids`. -/
def findStep (m : List (String × String)) (f : PFinding) : Except String PFinding :=
  match dictGetMandatory m f.id with
  | Except.error e => Except.error e
  | Except.ok newId =>
      Except.ok { f with id := newId, node_id := rewriteRef m f.node_id }

/-- Body of the scope-asset loop of `rewrite_uuids`. -/
def assetStep (m : List (String × String)) (a : PScopeAsset) :
    Except String PScopeAsset :=
  match dictGetMandatory m a.id with
  | Except.error e => Except.error e
  | Except.ok newId => Except.ok { a with id := newId }

/-- `import_service.rewrite_uuids` over the whole payload.  Every entity is
kept; entity ids are mandatory lookups (`KeyError` propagates), reference
fields are rewritten only when present in the map.  The function has no
warning output: the source records none. -/
def rewrite_uuids (data : ImportData) (m : List (String × String)) :
    Except String ImportData :=
  match mapExcept (nodeStep m) data.nodes with
  | Except.error e => Except.error e
  | Except.ok ns =>
    match mapExcept (ctxStep m) data.contexts with
    | Except.error e => Except.error e
    | Except.ok cs =>
      match mapExcept (cmdStep m) data.commands with
      | Except.error e => Except.error e
      | Except.ok cmds =>
        match mapExcept (varStep m) data.variables_ with
        | Except.error e => Except.error e
        | Except.ok vs =>
          match mapExcept (findStep m) data.findings with
          | Except.error e => Except.error e
          | Except.ok fs =>
            match mapExcept (assetStep m) data.scope_assets with
            | Except.error e => Except.error e
            | Except.ok as_ =>
              Except.ok { data with
                nodes := ns,
                relationships := data.relationships.map (relStep m),
                contexts := cs, commands := cmds, variables_ := vs,
                findings := fs, scope_assets := as_ }

/-! ## Crypto primitive (`export_service.encrypt_data` / `decrypt_data`)

The source derives a 32-byte key with `PBKDF2HMAC(SHA256, iterations =
100_000)` and encrypts with `AESGCM` from the `cryptography` library —
primitives outside this repository, modelled symbolically at their
interface: the derived key is determined by (and determines) the
password/salt pair, i.e. PBKDF2 collisions are idealized away, and an AEAD
ciphertext decrypts exactly under the key and nonce it was produced with,
any mismatch failing closed with `InvalidTag` (the idealization of GCM tag
authentication).  `secrets.token_bytes` randomness is modelled by passing
the generated salt and nonce as parameters. -/

/-- Byte strings. -/
abbrev Bytes := List Nat

/-- A key derived by `PBKDF2HMAC(SHA256, length=32, salt, iterations =
100_000)`: deterministic in password and salt, collision-free in the
symbolic model. -/
structure DerivedKey where
  password : String
  salt : Bytes
  deriving Repr, DecidableEq

/-- `kdf.derive(password.encode())` of `encrypt_data` / `decrypt_data`. -/
def pbkdf2_sha256 (password : String) (salt : Bytes) : DerivedKey :=
  { password := password, salt := salt }

/-- A symbolic AES-GCM ciphertext: it remembers the key and nonce it was
produced under and the plaintext it protects (confidentiality is not the
property under study; authentication is). -/
structure GcmCiphertext where
  key : DerivedKey
  nonce : Bytes
  plaintext : Bytes
  deriving Repr, DecidableEq

/-- The single generic authentication failure of AES-GCM
(`cryptography.exceptions.InvalidTag`). -/
inductive AuthError where
  | invalidTag
  deriving Repr, DecidableEq

/-- `AESGCM(key).encrypt(nonce, data, None)`. -/
def aesgcm_encrypt (key : DerivedKey) (nonce : Bytes) (data : Bytes) :
    GcmCiphertext :=
  { key := key, nonce := nonce, plaintext := data }

/-- `AESGCM(key).decrypt(nonce, ciphertext, None)`: authenticated
decryption succeeds exactly under the producing key and nonce. -/
def aesgcm_decrypt (key : DerivedKey) (nonce : Bytes) (ct : GcmCiphertext) :
    Except AuthError Bytes :=
  if ct.key = key ∧ ct.nonce = nonce then Except.ok ct.plaintext
  else Except.error AuthError.invalidTag

/-- `export_service.encrypt_data(data, password)`: generates a fresh salt
and nonce (passed in as the model of `secrets.token_bytes(32)` /
`token_bytes(12)`), derives the key, encrypts, and returns the
`(salt, nonce, ciphertext)` triple. -/
def encrypt_data (data : Bytes) (password : String) (salt nonce : Bytes) :
    Bytes × Bytes × GcmCiphertext :=
  (salt, nonce, aesgcm_encrypt (pbkdf2_sha256 password salt) nonce data)

/-- `export_service.decrypt_data(ciphertext, password, salt, nonce)`:
derives the key from password and salt and attempts authenticated
decryption. -/
def decrypt_data (ct : GcmCiphertext) (password : String) (salt nonce : Bytes) :
    Except AuthError Bytes :=
  aesgcm_decrypt (pbkdf2_sha256 password salt) nonce ct

/-! ## Template export (`export_service.export_template` /
`_fetch_template_data`)

`_fetch_template_data` never queries variables or findings; the contexts it
returns are the raw `dict(record)` of the context node, modelled with a
`variables_` slot so the unconditional sanitization
`context["variables"] = []` is visible in the embedding. -/

/-- The encryption methods of `schemas/export.py` (`"none"`, `"password"`,
`"generated"`). -/
inductive EncryptionMethod where
  | noneM
  | passwordM
  | generatedM
  deriving Repr, DecidableEq

/-- A variable record as it would appear under a context of a template
payload. -/
structure TemplVar where
  name : String := ""
  value : String := ""
  sensitive : Bool := false
  deriving Repr, DecidableEq

/-- A context dict of the fetched template data. -/
structure TemplCtx where
  id : String := ""
  name : String := ""
  description : String := ""
  variables_ : List TemplVar := []
  deriving Repr, DecidableEq

/-- A command dict of the fetched template data; `command.pop("output",
None)` erases the optional output. -/
structure TemplCmd where
  id : String := ""
  node_id : Option String := none
  output : Option String := none
  deriving Repr, DecidableEq

/-- A node dict of the fetched template data. -/
structure TemplNode where
  id : String := ""
  tags : List String := []
  deriving Repr, DecidableEq

/-- The root `template` dict returned by `_fetch_template_data`: `name`,
`description`, `is_public` (defaulted to false by `.get`), `category_tags`. -/
structure TemplateRootFetched where
  name : String := ""
  description : String := ""
  is_public : Bool := false
  category_tags : List String := []
  deriving Repr, DecidableEq

/-- The value returned by `_fetch_template_data` on success. -/
structure TemplateFetched where
  template : TemplateRootFetched := {}
  nodes : List TemplNode := []
  relationships : List PRel := []
  contexts : List TemplCtx := []
  commands : List TemplCmd := []
  tags : List String := []
  deriving Repr, DecidableEq

/-- The dict `json.dumps`-ed into the template container's data segment. -/
structure TemplatePayload where
  template : TemplateRootFetched
  nodes : List TemplNode
  relationships : List PRel
  contexts : List TemplCtx
  commands : List TemplCmd
  tags : List String
  deriving Repr, DecidableEq

/-- The keys of the dict serialized as the template container's data
segment, transliterated from the `json.dumps({...})` literal of
`export_template`: there is no `variables` key and no `findings` key. -/
def template_payload_keys : List String :=
  ["template", "nodes", "relationships", "contexts", "commands", "tags"]

/-- The sanitization step of `export_template`, performed before the
encryption branch: every context's `variables` entry is set to the empty
list and every command's `output` is popped. -/
def sanitize_template_data (td : TemplateFetched) : TemplateFetched :=
  { td with
    contexts := td.contexts.map (fun c => { c with variables_ := [] }),
    commands := td.commands.map (fun c => { c with output := none }) }

/-- The data segment assembled by `export_template` from the fetched
template data (identical for every encryption method: the dict is built and
serialized before the `encryption_method` branch). -/
def export_template_payload (td : TemplateFetched) : TemplatePayload :=
  let td' := sanitize_template_data td
  { template := td'.template, nodes := td'.nodes,
    relationships := td'.relationships, contexts := td'.contexts,
    commands := td'.commands, tags := td'.tags }

/-- A written template container: the payload (the plaintext content of
`data.json`, or the AEAD plaintext behind `data.enc`) plus whether the data
segment is encrypted. -/
structure TemplateContainer where
  payload : TemplatePayload
  encrypted : Bool
  deriving Repr, DecidableEq

/-- `export_service.export_template`, given the already-fetched template
data (the Neo4j session is abstracted behind `td`): validates the password
options, assembles and sanitizes the payload, and writes either a plaintext
or an encrypted container.  `ValueError` paths are modelled as `Except`. -/
def export_template (td : TemplateFetched) (em : EncryptionMethod)
    (password : Option String) : Except String TemplateContainer :=
  match em, password with
  | EncryptionMethod.passwordM, none =>
      Except.error "Password required for password encryption method"
  | _, _ =>
      Except.ok { payload := export_template_payload td,
                  encrypted := em ≠ EncryptionMethod.noneM }

/-! ## Container reading (`import_service.preview_import`,
`import_project`, `import_template`)

The zip container is modelled by its member names plus parse oracles for
the byte-level operations (`json.loads` of `metadata.json` / `data.json`,
and `decrypt_data` + `json.loads` of the encrypted segment).  Crucially for
claim C6, the module `import_service.py` never imports or defines `logger`,
so the generic `except Exception` handler of `preview_import` (which calls
`logger.error(...)`) itself raises `NameError` — every exception that
reaches it escapes as an unhandled fault. -/

/-- Result of reading-and-parsing a json member: distinguishes
`json.JSONDecodeError` (a `ValueError`) from any other failure, because
`preview_import` has separate handlers for the two. -/
inductive ReadErr where
  | jsonDecode (msg : String)
  | other (msg : String)
  deriving Repr, DecidableEq

/-- The message text of the exception, `str(e)`. -/
def ReadErr.msg : ReadErr → String
  | ReadErr.jsonDecode m => m
  | ReadErr.other m => m

/-- The parsed `metadata.json`.  `metadata.get("format")` is optional;
`metadata["exported_at"]` and `metadata["version"]` are mandatory accesses
in `preview_import`, so their absence raises `KeyError`. -/
structure Metadata where
  format : Option String := none
  exported_at : Option String := none
  version : Option String := none
  deriving Repr, DecidableEq

/-- A zip container: member names and parse oracles.  `decryptData pw`
models `decrypt_data(ciphertext, pw, salt, nonce)` followed by
`json.loads`; its error message is `str(e)` of whichever exception was
raised. -/
structure ZipC where
  names : List String := []
  metaParse : Except ReadErr Metadata := Except.error (ReadErr.other "")
  dataParse : Except ReadErr ImportData := Except.error (ReadErr.other "")
  decryptData : String → Except String ImportData := fun _ => Except.error ""

/-- A file handed to preview/import: existence, readability and size model
the `os.path` checks; `zip = none` models a file on which
`zipfile.ZipFile` raises `BadZipFile`. -/
structure PFile where
  exists_ : Bool := true
  readable : Bool := true
  size : Nat := 1
  zip : Option ZipC := none

/-- Python truthiness of an optional string (`None` and `""` are falsy). -/
def optTruthy : Option String → Bool
  | none => false
  | some s => s ≠ ""

/-- The fault escaping `preview_import`'s generic exception handler: the
handler evaluates `logger.error(...)` but `logger` is not defined anywhere
in `import_service.py`. -/
def nameErrorLogger : String := "NameError: name 'logger' is not defined"

/-- Outcome of `preview_import`: a returned dict (`errorDict`,
`errorWithMetadata` or `ok`), or an exception escaping the function. -/
inductive PreviewOutcome where
  | errorDict (msg : String)
  | errorWithMetadata (msg : String) (md : Metadata)
  | ok (itemType name description exported_at version : String)
      (node_count context_count command_count variable_count tag_count
        scope_asset_count : Nat)
  | raised (exn : String)
  deriving Repr, DecidableEq

/-- The tail of `preview_import` after the data segment is decoded: entity
counts, then `data["project"]` / `data["template"]` and the mandatory
metadata fields; a missing key raises `KeyError` into the generic handler,
which faults with `NameError`. -/
def previewCounts (md : Metadata) (data : ImportData) : PreviewOutcome :=
  let mkOk : String → String → Option String → PreviewOutcome :=
    fun itemType nm desc =>
      match md.exported_at, md.version with
      | some ea, some ver =>
          PreviewOutcome.ok itemType nm (desc.getD "") ea ver
            data.nodes.length data.contexts.length data.commands.length
            data.variables_.length data.tags.length data.scope_assets.length
      | _, _ => PreviewOutcome.raised nameErrorLogger
  match data.project with
  | some info => mkOk "project" info.name info.description
  | none =>
    match data.template with
    | some info => mkOk "template" info.name info.description
    | none => PreviewOutcome.raised nameErrorLogger

/-- `import_service.preview_import`. -/
def preview_import (f : PFile) (password : Option String) : PreviewOutcome :=
  if f.exists_ = false then PreviewOutcome.errorDict "File not found"
  else if f.readable = false then PreviewOutcome.errorDict "File is not readable"
  else if f.size = 0 then PreviewOutcome.errorDict "File is empty"
  else
    match f.zip with
    | none => PreviewOutcome.errorDict
        "Invalid file format. The file is not a valid .pwnflow-project file."
    | some z =>
      if "metadata.json" ∉ z.names then
        PreviewOutcome.errorDict "Invalid file format: metadata.json not found"
      else
        match z.metaParse with
        | Except.error (ReadErr.jsonDecode e) =>
            PreviewOutcome.errorDict ("Failed to read file: " ++ e)
        | Except.error (ReadErr.other e) =>
            PreviewOutcome.errorDict ("Failed to read metadata: " ++ e)
        | Except.ok md =>
          let isEnc := "data.enc" ∈ z.names
          if isEnc ∧ optTruthy password = false then
            PreviewOutcome.errorWithMetadata "Password required for encrypted file" md
          else if isEnc then
            if "salt.bin" ∉ z.names ∨ "nonce.bin" ∉ z.names then
              PreviewOutcome.raised nameErrorLogger
            else
              match z.decryptData (password.getD "") with
              | Except.error _ => PreviewOutcome.errorWithMetadata "Invalid password" md
              | Except.ok data => previewCounts md data
          else
            if "data.json" ∉ z.names then PreviewOutcome.raised nameErrorLogger
            else
              match z.dataParse with
              | Except.error _ => PreviewOutcome.raised nameErrorLogger
              | Except.ok data => previewCounts md data

/-! ## Import reconstruction (`_create_new_project`, `_merge_into_project`,
`_create_template`) -/

/-- A write issued against the graph store (one `session.run` that creates
entities or relations). -/
inductive GWrite where
  | createProject (id name description layout_direction : String)
      (category_tags : List String)
  | createNode (rootId id : String)
  | addTag (nodeId tag : String)
  | createRelationship (source target : String)
  | createContext (rootId id : String)
  | createCommand (nodeId id : String)
  | createFinding (nodeId id : String)
  | createVariable (contextId id : String)
  | createScopeAsset (id : String)
  | addScopeTag (assetId tagId tag : String)
  | createTemplate (id name description : String) (is_public : Bool)
      (category_tags : List String)
  deriving Repr, DecidableEq

/-- The scope-asset loop of `_create_new_project`: create each asset, then
one `ScopeTag` per tag, each tag consuming one fresh `uuid.uuid4()` (the
`gen` counter threads through the pairs in order). -/
def scopeAssetWrites (assets : List PScopeAsset) (gen : Nat → String)
    (ctr : Nat) : List GWrite :=
  match assets with
  | [] => []
  | a :: rest =>
    (GWrite.createScopeAsset a.id ::
      a.tags.enum.map (fun p => GWrite.addScopeTag a.id (gen (ctr + p.1)) p.2))
      ++ scopeAssetWrites rest gen (ctr + a.tags.length)

/-- `import_service._create_new_project`: the sequence of graph writes, in
source order (project, nodes with their tags, relationships, contexts,
commands, findings, variables, scope assets with their tags).  Guarded
loops (`if node_id:` etc.) follow Python truthiness.  `uuid.uuid4()` calls
continue the `gen` supply from counter `ctr` (the project id, then one id
per scope-asset tag).  `data["project"]` is a mandatory access. -/
def create_new_project (data : ImportData) (gen : Nat → String) (ctr : Nat) :
    Except String (String × List GWrite) :=
  match data.project with
  | none => Except.error "'project'"
  | some info =>
    let pid := gen ctr
    let nodeWrites := data.nodes.flatMap (fun n =>
      GWrite.createNode pid n.id :: n.tags.map (fun t => GWrite.addTag n.id t))
    let relWrites := data.relationships.map (fun r =>
      GWrite.createRelationship r.source r.target)
    let ctxWrites := data.contexts.map (fun c => GWrite.createContext pid c.id)
    let cmdWrites := data.commands.flatMap (fun c =>
      match c.node_id with
      | some nid => if nid ≠ "" then [GWrite.createCommand nid c.id] else []
      | none => [])
    let findWrites := data.findings.flatMap (fun fd =>
      match fd.node_id with
      | some nid => if nid ≠ "" then [GWrite.createFinding nid fd.id] else []
      | none => [])
    let varWrites := data.variables_.flatMap (fun v =>
      match v.context_id with
      | some cid => if cid ≠ "" then [GWrite.createVariable cid v.id] else []
      | none => [])
    Except.ok (pid,
      GWrite.createProject pid (info.name ++ " (Imported)")
          (info.description.getD "") (info.layout_direction.getD "TB")
          (info.category_tags.getD []) ::
        (nodeWrites ++ relWrites ++ ctxWrites ++ cmdWrites ++ findWrites ++
          varWrites ++ scopeAssetWrites data.scope_assets gen (ctr + 1)))

/-- `import_service._create_template`: creates the template — with
`is_public: false` written literally in the Cypher `CREATE`, whatever the
payload or its metadata declare — then nodes with tags, relationships,
contexts (without variables) and commands.  `data["template"]` is a
mandatory access. -/
def create_template (data : ImportData) (gen : Nat → String) (ctr : Nat) :
    Except String (String × List GWrite) :=
  match data.template with
  | none => Except.error "'template'"
  | some info =>
    let tid := gen ctr
    let nodeWrites := data.nodes.flatMap (fun n =>
      GWrite.createNode tid n.id :: n.tags.map (fun t => GWrite.addTag n.id t))
    let relWrites := data.relationships.map (fun r =>
      GWrite.createRelationship r.source r.target)
    let ctxWrites := data.contexts.map (fun c => GWrite.createContext tid c.id)
    let cmdWrites := data.commands.flatMap (fun c =>
      match c.node_id with
      | some nid => if nid ≠ "" then [GWrite.createCommand nid c.id] else []
      | none => [])
    Except.ok (tid,
      GWrite.createTemplate tid (info.name ++ " (Imported)")
          (info.description.getD "") false (info.category_tags.getD []) ::
        (nodeWrites ++ relWrites ++ ctxWrites ++ cmdWrites))

/-- Read and decode the data segment of an already-opened container, shared
by `import_project` and `import_template`: decrypt when `data.enc` is
present (password required, `salt.bin`/`nonce.bin` reads may raise
`KeyError`), else read `data.json`. -/
def readDataSegment (z : ZipC) (password : Option String) :
    Except String ImportData :=
  if "data.enc" ∈ z.names then
    if optTruthy password = false then
      Except.error "Password required for encrypted file"
    else if "salt.bin" ∉ z.names then Except.error "'salt.bin'"
    else if "nonce.bin" ∉ z.names then Except.error "'nonce.bin'"
    else z.decryptData (password.getD "")
  else
    if "data.json" ∉ z.names then Except.error "'data.json'"
    else
      match z.dataParse with
      | Except.error e => Except.error e.msg
      | Except.ok data => Except.ok data

/-- `import_service.import_project`: the whole body runs under `try: ...
except Exception as e: raise Exception(f"Import failed: {str(e)}")`, so
every failure reaches the caller as that single wrapped exception (modelled
as `Except.error` with the wrapped message).  Returns the raised-or-returned
value together with the list of graph writes issued. -/
def import_project (f : PFile) (password : Option String)
    (import_mode : String) (target_project_id : Option String)
    (gen : Nat → String) : Except String String × List GWrite :=
  match f.zip with
  | none => (Except.error ("Import failed: " ++ "File is not a zip file"), [])
  | some z =>
    if "metadata.json" ∉ z.names then (Except.error ("Import failed: " ++ "'metadata.json'"), [])
    else
      match z.metaParse with
      | Except.error e => (Except.error ("Import failed: " ++ e.msg), [])
      | Except.ok md =>
        if md.format ≠ some "pwnflow-project" then
          (Except.error ("Import failed: " ++ "Invalid file format. Expected pwnflow-project"), [])
        else
          match readDataSegment z password with
          | Except.error e => (Except.error ("Import failed: " ++ e), [])
          | Except.ok data =>
            match rewrite_uuids data (generate_uuid_map gen data) with
            | Except.error e => (Except.error ("Import failed: " ++ e), [])
            | Except.ok data' =>
              if import_mode = "new" then
                match create_new_project data' gen (entityIds data).length with
                | Except.error e => (Except.error ("Import failed: " ++ e), [])
                | Except.ok (pid, ws) => (Except.ok pid, ws)
              else
                if optTruthy target_project_id = false then
                  (Except.error ("Import failed: " ++ "Target project ID required for merge mode"), [])
                else
                  -- `_merge_into_project` raises
                  -- `NotImplementedError("Merge mode not yet implemented")`
                  -- before issuing any write; the outer handler wraps it.
                  (Except.error ("Import failed: " ++ "Merge mode not yet implemented"), [])

/-- `import_service.import_template`: like `import_project` but validating
the `pwnflow-template` format and creating a template. -/
def import_template (f : PFile) (password : Option String)
    (gen : Nat → String) : Except String String × List GWrite :=
  match f.zip with
  | none => (Except.error ("Import failed: " ++ "File is not a zip file"), [])
  | some z =>
    if "metadata.json" ∉ z.names then (Except.error ("Import failed: " ++ "'metadata.json'"), [])
    else
      match z.metaParse with
      | Except.error e => (Except.error ("Import failed: " ++ e.msg), [])
      | Except.ok md =>
        if md.format ≠ some "pwnflow-template" then
          (Except.error ("Import failed: " ++ "Invalid file format. Expected pwnflow-template"), [])
        else
          match readDataSegment z password with
          | Except.error e => (Except.error ("Import failed: " ++ e), [])
          | Except.ok data =>
            match rewrite_uuids data (generate_uuid_map gen data) with
            | Except.error e => (Except.error ("Import failed: " ++ e), [])
            | Except.ok data' =>
              match create_template data' gen (entityIds data).length with
              | Except.error e => (Except.error ("Import failed: " ++ e), [])
              | Except.ok (tid, ws) => (Except.ok tid, ws)

/-! ## Legacy import (`legacy_import_service.py`, schemas in
`schemas/legacy_import.py`)

The untrusted legacy document is modelled structurally: a raw record has an
`Option` slot for every field that pydantic declares as required, `none`
modelling the key being absent (or failing validation), which makes
`LegacyProject(**legacy_data)` raise `ValidationError` for the WHOLE
document.  Fields with pydantic defaults that the import never reads are
not modelled.  Error messages are abbreviated to the first failing field.

`ImportProgress.percentage` is a Python float; percentages are embedded as
exact rationals (`ℚ`), the real-number semantics of the source's
arithmetic.  Randomness (`uuid.uuid4`) is the `gen` supply; graph-store
failures are oracles (`cpf` for `crud.create_project`, `nf i` / `ef i` for
the exception, if any, raised inside node `i`'s / edge `i`'s `try` body,
`tf` for `_import_template`); `now` stands for `datetime.now()`
formatting. -/

/-- A legacy command entry (`data.commands` is `List[Any]`; only dict
entries are imported, so `isDict` records the `isinstance(cmd, dict)`
test). -/
structure RawCmd where
  isDict : Bool := true
  title : String := "Imported Command"
  command : String := ""
  description : String := ""
  deriving Repr, DecidableEq

/-- Raw `LegacyNodeData`: pydantic requires `name`; the other consumed
fields have defaults. -/
structure RawNodeData where
  name : Option String := none
  description : String := ""
  status : String := "NOT_STARTED"
  commands : List RawCmd := []
  tags : List String := []
  deriving Repr, DecidableEq

/-- Raw `LegacyNode`: pydantic requires `id`, `type`, `position` and
`data`. -/
structure RawNode where
  id : Option String := none
  type_ : Option String := none
  position : Option (List (String × ℚ)) := none
  data : Option RawNodeData := none
  deriving Repr, DecidableEq

/-- Raw `LegacyEdge`: pydantic requires `id`, `source` and `target`. -/
structure RawEdge where
  id : Option String := none
  source : Option String := none
  target : Option String := none
  deriving Repr, DecidableEq

/-- Raw `LegacyFlowData`: `nodes` and `edges` are required lists. -/
structure RawFlow where
  nodes : Option (List RawNode) := none
  edges : Option (List RawEdge) := none
  deriving Repr, DecidableEq

/-- Raw `LegacyTemplate`: `id`, `name` and `flowData` are required. -/
structure RawTemplate where
  id : Option String := none
  name : Option String := none
  description : String := ""
  flowData : Option RawFlow := none
  tags : List String := []
  deriving Repr, DecidableEq

/-- Raw `LegacyProject`: `id`, `identifier` and `name` are required;
`template`, `flowData`, `nodes`, `edges` are `Optional`. -/
structure RawLegacyProject where
  id : Option String := none
  identifier : Option String := none
  name : Option String := none
  description : String := ""
  tags : List String := []
  template : Option RawTemplate := none
  flowData : Option RawFlow := none
  nodes : Option (List RawNode) := none
  edges : Option (List RawEdge) := none
  deriving Repr, DecidableEq

/-- Validated `LegacyNodeData`. -/
structure LegacyNodeData where
  name : String
  description : String
  status : String
  commands : List RawCmd
  tags : List String
  deriving Repr, DecidableEq

/-- Validated `LegacyNode`. -/
structure LegacyNode where
  id : String
  type_ : String
  position : List (String × ℚ)
  data : LegacyNodeData
  deriving Repr, DecidableEq

/-- Validated `LegacyEdge`. -/
structure LegacyEdge where
  id : String
  source : String
  target : String
  deriving Repr, DecidableEq

/-- Validated `LegacyFlowData`. -/
structure LegacyFlowData where
  nodes : List LegacyNode
  edges : List LegacyEdge
  deriving Repr, DecidableEq

/-- Validated `LegacyTemplate`. -/
structure LegacyTemplate where
  id : String
  name : String
  description : String
  flowData : LegacyFlowData
  tags : List String
  deriving Repr, DecidableEq

/-- Validated `LegacyProject`. -/
structure LegacyProject where
  id : String
  identifier : String
  name : String
  description : String
  tags : List String
  template : Option LegacyTemplate
  flowData : Option LegacyFlowData
  nodes : Option (List LegacyNode)
  edges : Option (List LegacyEdge)
  deriving Repr, DecidableEq

/-- Require a pydantic-required field. -/
def requireField {α : Type} (fieldName : String) :
    Option α → Except String α
  | some a => Except.ok a
  | none => Except.error (fieldName ++ ": Field required")

/-- Validation of one `LegacyNodeData`. -/
def parseNodeData (raw : RawNodeData) : Except String LegacyNodeData :=
  match requireField "data.name" raw.name with
  | Except.error e => Except.error e
  | Except.ok nm =>
      Except.ok { name := nm, description := raw.description,
                  status := raw.status, commands := raw.commands,
                  tags := raw.tags }

/-- Validation of one `LegacyNode`. -/
def parseNode (raw : RawNode) : Except String LegacyNode :=
  match requireField "id" raw.id with
  | Except.error e => Except.error e
  | Except.ok i =>
    match requireField "type" raw.type_ with
    | Except.error e => Except.error e
    | Except.ok t =>
      match requireField "position" raw.position with
      | Except.error e => Except.error e
      | Except.ok pos =>
        match requireField "data" raw.data with
        | Except.error e => Except.error e
        | Except.ok rd =>
          match parseNodeData rd with
          | Except.error e => Except.error e
          | Except.ok d =>
              Except.ok { id := i, type_ := t, position := pos, data := d }

/-- Validation of one `LegacyEdge`. -/
def parseEdge (raw : RawEdge) : Except String LegacyEdge :=
  match requireField "id" raw.id with
  | Except.error e => Except.error e
  | Except.ok i =>
    match requireField "source" raw.source with
    | Except.error e => Except.error e
    | Except.ok s =>
      match requireField "target" raw.target with
      | Except.error e => Except.error e
      | Except.ok t => Except.ok { id := i, source := s, target := t }

/-- Validation of one `LegacyFlowData`. -/
def parseFlow (raw : RawFlow) : Except String LegacyFlowData :=
  match requireField "nodes" raw.nodes with
  | Except.error e => Except.error e
  | Except.ok rns =>
    match mapExcept parseNode rns with
    | Except.error e => Except.error e
    | Except.ok ns =>
      match requireField "edges" raw.edges with
      | Except.error e => Except.error e
      | Except.ok res =>
        match mapExcept parseEdge res with
        | Except.error e => Except.error e
        | Except.ok es => Except.ok { nodes := ns, edges := es }

/-- Validation of one `LegacyTemplate`. -/
def parseTemplate (raw : RawTemplate) : Except String LegacyTemplate :=
  match requireField "id" raw.id with
  | Except.error e => Except.error e
  | Except.ok i =>
    match requireField "name" raw.name with
    | Except.error e => Except.error e
    | Except.ok nm =>
      match requireField "flowData" raw.flowData with
      | Except.error e => Except.error e
      | Except.ok rf =>
        match parseFlow rf with
        | Except.error e => Except.error e
        | Except.ok f =>
            Except.ok { id := i, name := nm, description := raw.description,
                        flowData := f, tags := raw.tags }

/-- Traverse an optional sub-document. -/
def parseOpt {α β : Type} (p : α → Except String β) :
    Option α → Except String (Option β)
  | none => Except.ok none
  | some a =>
    match p a with
    | Except.error e => Except.error e
    | Except.ok b => Except.ok (some b)

/-- `LegacyProject(**legacy_data)`: pydantic validates the WHOLE document
at once — any malformed node, edge, flow or template record fails the whole
construction with `ValidationError`. -/
def parseLegacyProject (raw : RawLegacyProject) : Except String LegacyProject :=
  match requireField "id" raw.id with
  | Except.error e => Except.error e
  | Except.ok i =>
    match requireField "identifier" raw.identifier with
    | Except.error e => Except.error e
    | Except.ok idf =>
      match requireField "name" raw.name with
      | Except.error e => Except.error e
      | Except.ok nm =>
        match parseOpt parseTemplate raw.template with
        | Except.error e => Except.error e
        | Except.ok tpl =>
          match parseOpt parseFlow raw.flowData with
          | Except.error e => Except.error e
          | Except.ok fd =>
            match parseOpt (mapExcept parseNode) raw.nodes with
            | Except.error e => Except.error e
            | Except.ok ns =>
              match parseOpt (mapExcept parseEdge) raw.edges with
              | Except.error e => Except.error e
              | Except.ok es =>
                  Except.ok { id := i, identifier := idf, name := nm,
                              description := raw.description, tags := raw.tags,
                              template := tpl, flowData := fd,
                              nodes := ns, edges := es }

/-- `_extract_nodes_and_edges`: Python truthiness — `if
legacy_project.nodes and legacy_project.edges` is false when either is
`None` OR an empty list, in which case the flow data, then the template's
flow data, are tried. -/
def extract_nodes_and_edges (lp : LegacyProject) :
    List LegacyNode × List LegacyEdge :=
  match lp.nodes, lp.edges with
  | some ns, some es =>
    if ns ≠ [] ∧ es ≠ [] then (ns, es)
    else
      match lp.flowData with
      | some f => (f.nodes, f.edges)
      | none =>
        match lp.template with
        | some t => (t.flowData.nodes, t.flowData.edges)
        | none => ([], [])
  | _, _ =>
    match lp.flowData with
    | some f => (f.nodes, f.edges)
    | none =>
      match lp.template with
      | some t => (t.flowData.nodes, t.flowData.edges)
      | none => ([], [])

/-- A graph write issued by the legacy import. -/
inductive LWrite where
  | createProject (id name : String)
  | setLegacyMeta (projectId legacyId : String)
  | createNode (id title : String)
  | createCommand (id nodeId title command description : String)
  | mergeTag (name : String)
  | linkTag (nodeId tag : String)
  | createEdge (sourceId targetId id legacyId : String)
  | createTemplate (id name description projectId : String)
  deriving Repr, DecidableEq

/-- `schemas/legacy_import.ImportResult`. -/
structure ImportResult where
  project_id : String
  original_id : String
  node_mappings : List (String × String)
  edge_mappings : List (String × String)
  imported_nodes : Nat
  imported_edges : Nat
  errors : List String
  warnings : List String
  deriving Repr, DecidableEq

/-- Mutable state of one legacy import operation (the service instance's
fields plus the uuid counter and the emitted progress updates). -/
structure LegAcc where
  node_mappings : List (String × String) := []
  edge_mappings : List (String × String) := []
  errors : List String := []
  warnings : List String := []
  processed_nodes : Nat := 0
  processed_edges : Nat := 0
  emissions : List (String × ℚ) := []
  writes : List LWrite := []
  ctr : Nat := 0

/-- `_import_node_commands`: one `Command` node per dict entry, each
consuming one fresh uuid. -/
def importNodeCommands (nodeId : String) (gen : Nat → String) :
    List RawCmd → Nat → List LWrite × Nat
  | [], ctr => ([], ctr)
  | c :: rest, ctr =>
    if c.isDict then
      let (ws, ctr') := importNodeCommands nodeId gen rest (ctr + 1)
      (LWrite.createCommand (gen ctr) nodeId c.title c.command c.description
        :: ws, ctr')
    else importNodeCommands nodeId gen rest ctr

/-- `_import_node_tags`: `MERGE` the tag, then link it. -/
def importNodeTags (nodeId : String) (tags : List String) : List LWrite :=
  tags.flatMap (fun t => [LWrite.mergeTag t, LWrite.linkTag nodeId t])

/-- `_import_nodes`: for node `i` (0-based), generate a fresh uuid, record
the mapping (BEFORE any write, so even failing nodes are mapped), then run
the node's writes; an exception (oracle `nf i`) is caught, appended to
`errors` as `Node {name}: {e}`, and the loop continues with the next node;
on success the progress callback is invoked with
`30 + (i + 1) * (40 / max(len(nodes), 1))`. -/
def importNodesGo (nf : Nat → Option String) (gen : Nat → String) (n : Nat)
    (ppn : ℚ) : List LegacyNode → Nat → LegAcc → LegAcc
  | [], _, acc => acc
  | nd :: rest, i, acc =>
    let newId := gen acc.ctr
    let acc1 := { acc with
                  ctr := acc.ctr + 1,
                  node_mappings := acc.node_mappings ++ [(nd.id, newId)] }
    match nf i with
    | some msg =>
        importNodesGo nf gen n ppn rest (i + 1)
          { acc1 with
            errors := acc1.errors ++ ["Node " ++ nd.data.name ++ ": " ++ msg] }
    | none =>
        let cw := importNodeCommands newId gen nd.data.commands acc1.ctr
        let acc2 := { acc1 with
          ctr := cw.2,
          writes := acc1.writes ++ (LWrite.createNode newId nd.data.name ::
            (cw.1 ++ importNodeTags newId nd.data.tags)),
          processed_nodes := acc1.processed_nodes + 1,
          emissions := acc1.emissions ++
            [("Importing node " ++ toString (i + 1) ++ "/" ++ toString n,
              30 + ((i : ℚ) + 1) * ppn)] }
        importNodesGo nf gen n ppn rest (i + 1) acc2

/-- `_import_edges`: edges whose endpoints have no (truthy) node mapping
are skipped with a warning and NO progress update; a write failure (oracle
`ef i`) consumes the fresh uuid, appends to `errors` and continues; a
success records the edge mapping and emits
`70 + (i + 1) * (20 / max(len(edges), 1))`. -/
def importEdgesGo (ef : Nat → Option String) (gen : Nat → String) (m : Nat)
    (ppe : ℚ) : List LegacyEdge → Nat → LegAcc → LegAcc
  | [], _, acc => acc
  | e :: rest, i, acc =>
    if optTruthy (dictGet acc.node_mappings e.source) = false ∨
        optTruthy (dictGet acc.node_mappings e.target) = false then
      importEdgesGo ef gen m ppe rest (i + 1)
        { acc with warnings := acc.warnings ++
            ["Edge " ++ e.id ++ ": Missing node mapping for source=" ++
              e.source ++ " or target=" ++ e.target] }
    else
      let newId := gen acc.ctr
      let sid := (dictGet acc.node_mappings e.source).getD ""
      let tid := (dictGet acc.node_mappings e.target).getD ""
      match ef i with
      | some msg =>
          importEdgesGo ef gen m ppe rest (i + 1)
            { acc with
              ctr := acc.ctr + 1,
              errors := acc.errors ++ ["Edge " ++ e.id ++ ": " ++ msg] }
      | none =>
          importEdgesGo ef gen m ppe rest (i + 1)
            { acc with
              ctr := acc.ctr + 1,
              writes := acc.writes ++ [LWrite.createEdge sid tid newId e.id],
              edge_mappings := acc.edge_mappings ++ [(e.id, newId)],
              processed_edges := acc.processed_edges + 1,
              emissions := acc.emissions ++
                [("Importing relationship " ++ toString (i + 1) ++ "/" ++
                    toString m, 70 + ((i : ℚ) + 1) * ppe)] }

/-- The service state at the start of the node phase: the uuid counter has
consumed the project id, and the project writes have been issued. -/
def initialLegAcc (pid projName legacyId : String) : LegAcc :=
  { ctr := 1,
    writes := [LWrite.createProject pid projName,
               LWrite.setLegacyMeta pid legacyId] }

/-- Bookkeeping helper of the embedding: the edge phase's (and template
phase's) emissions are collected separately, so the state handed over
between phases carries everything but the emission list; the orchestrator
concatenates the phase emissions in callback order. -/
def resetEmissions (acc : LegAcc) : LegAcc :=
  { acc with emissions := [] }

/-- `import_legacy_project`: parse (a `ValidationError` aborts everything
before the first progress update), then emit `10`, extract, emit `20`,
create the project (an unrecoverable failure re-raises), emit `30`, import
nodes, emit `70`, import edges, emit `90` and import the template when one
is present (its own failure only appends a warning), emit `100`, and
return the `ImportResult`. -/
def import_legacy_project (raw : RawLegacyProject)
    (cpf : Option String) (nf ef : Nat → Option String) (tf : Option String)
    (gen : Nat → String) (now : String) :
    Except String ImportResult × List (String × ℚ) × List LWrite :=
  match parseLegacyProject raw with
  | Except.error e => (Except.error e, [], [])
  | Except.ok lp =>
    let nodes := (extract_nodes_and_edges lp).1
    let edges := (extract_nodes_and_edges lp).2
    match cpf with
    | some msg =>
        (Except.error msg,
         [("Parsing legacy data", 10), ("Creating project", 20)], [])
    | none =>
      let pid := gen 0
      let projName := if lp.name ≠ "" then lp.name
        else "Imported Project " ++ now
      let acc0 := initialLegAcc pid projName lp.id
      let accN := importNodesGo nf gen nodes.length
        (40 / (max nodes.length 1 : ℚ)) nodes 0 acc0
      let accE := importEdgesGo ef gen edges.length
        (20 / (max edges.length 1 : ℚ)) edges 0 (resetEmissions accN)
      let accT :=
        match lp.template, tf with
        | some t, none =>
            { accE with
              writes := accE.writes ++
                [LWrite.createTemplate (gen accE.ctr) t.name t.description pid],
              ctr := accE.ctr + 1 }
        | some _, some msg =>
            { accE with warnings := accE.warnings ++ ["Template import: " ++ msg] }
        | none, _ => accE
      (Except.ok
        { project_id := pid, original_id := lp.id,
          node_mappings := accT.node_mappings,
          edge_mappings := accT.edge_mappings,
          imported_nodes := accT.processed_nodes,
          imported_edges := accT.processed_edges,
          errors := accT.errors, warnings := accT.warnings },
       ("Parsing legacy data", 10) :: ("Creating project", 20) ::
         ("Importing nodes", 30) :: (accN.emissions ++
         (("Importing relationships", 70) :: (accE.emissions ++
           ((if lp.template.isSome then [("Importing template", 90)] else []) ++
             [("Import completed", 100)])))),
       accT.writes)

/-- Number of indices `i ≤ j < i + k` at which the node-failure oracle is
silent (nodes successfully written). -/
def succCount (nf : Nat → Option String) (i : Nat) : Nat → Nat
  | 0 => 0
  | k + 1 => (if (nf i).isNone then 1 else 0) + succCount nf (i + 1) k

/-- Number of indices `i ≤ j < i + k` at which the node-failure oracle
raises. -/
def failCount (nf : Nat → Option String) (i : Nat) : Nat → Nat
  | 0 => 0
  | k + 1 => (if (nf i).isSome then 1 else 0) + failCount nf (i + 1) k

/-! ## Concrete inputs used by counterexamples and witnesses -/

/-- A deterministic stand-in for the `uuid.uuid4()` supply: the k-th call
returns a string of `k + 2` letters `u`.  It is injective and, on the
concrete payloads below (whose identifiers are single characters or contain
letters other than `u`), never collides with an input identifier. -/
def genW : Nat → String := fun n => String.mk (List.replicate (n + 2) 'u')

/-- Payload in which the same identifier string `"a"` occurs both as a node
id and as a context id.  `import_service` accepts it: neither
`import_project` nor `generate_uuid_map` checks identifier uniqueness. -/
def dataDup : ImportData :=
  { nodes := [{ id := "a" }], contexts := [{ id := "a" }] }

/-- Payload whose only content is one relationship between identifiers that
belong to no entity, so the generated identifier map is empty and both
endpoints are dangling. -/
def dataRel : ImportData :=
  { relationships := [{ source := "x", target := "y" }] }

/-- Well-formed payload with pairwise distinct entity ids and one command
whose `node_id` reference is dangling (no node `"zz"` exists). -/
def dataW : ImportData :=
  { nodes := [{ id := "a" }], contexts := [{ id := "b" }],
    commands := [{ id := "c", node_id := some "zz" }] }

/-- The remapped copy of `dataW` produced with the `genW` supply. -/
def outW : ImportData :=
  { nodes := [{ id := "uu" }], contexts := [{ id := "uuu" }],
    commands := [{ id := "uuuu", node_id := some "zz" }] }

/-- A structurally valid metadata segment. -/
def mdProject : Metadata :=
  { format := some "pwnflow-project",
    exported_at := some "2024-01-01T00:00:00", version := some "1.0" }

/-- A readable, non-empty zip file whose only member is a well-formed
`metadata.json`: the data segment (`data.json` / `data.enc`) is missing. -/
def fileNoData : PFile :=
  { zip := some { names := ["metadata.json"], metaParse := Except.ok mdProject } }

/-- A well-formed plaintext project container holding `dataW`. -/
def fileW : PFile :=
  { zip := some { names := ["metadata.json", "data.json"],
                  metaParse := Except.ok mdProject,
                  dataParse := Except.ok { dataW with project := some { name := "p" } } } }

/-- A well-formed plaintext template container whose template data declares
`is_public = true`. -/
def fileT : PFile :=
  { zip := some { names := ["metadata.json", "data.json"],
                  metaParse := Except.ok
                    { mdProject with format := some "pwnflow-template" },
                  dataParse := Except.ok
                    { template := some { name := "T", is_public := some true } } } }

/-- A well-formed raw legacy node. -/
def rawGoodNode : RawNode :=
  { id := some "n1", type_ := some "custom",
    position := some [("x", 0), ("y", 0)],
    data := some { name := some "Node one" } }

/-- A second well-formed raw legacy node. -/
def rawGoodNode2 : RawNode :=
  { id := some "n2", type_ := some "custom",
    position := some [("x", 100), ("y", 0)],
    data := some { name := some "Node two" } }

/-- A malformed raw legacy node: its `data` object has no `name`, which
pydantic declares required. -/
def rawBadNode : RawNode :=
  { id := some "n3", type_ := some "custom",
    position := some [("x", 0), ("y", 100)],
    data := some { name := none } }

/-- A well-formed raw legacy edge between the two good nodes. -/
def rawEdge1 : RawEdge :=
  { id := some "e1", source := some "n1", target := some "n2" }

/-- A legacy document with one well-formed and one malformed node record
(plus a well-formed edge), otherwise valid. -/
def rawBad : RawLegacyProject :=
  { id := some "p1", identifier := some "P-1", name := some "Legacy",
    nodes := some [rawGoodNode, rawBadNode], edges := some [rawEdge1] }

/-- A fully well-formed legacy document with two nodes and one edge. -/
def rawGood : RawLegacyProject :=
  { id := some "p1", identifier := some "P-1", name := some "Legacy",
    nodes := some [rawGoodNode, rawGoodNode2], edges := some [rawEdge1] }

/-- A node-failure oracle: the graph write of node `0` raises `boom`, all
other nodes succeed. -/
def nfW : Nat → Option String := fun i => if i = 0 then some "boom" else none

/-- The parsed form of `rawGoodNode`. -/
def lnodeA : LegacyNode :=
  { id := "n1", type_ := "custom", position := [("x", 0), ("y", 0)],
    data := { name := "Node one", description := "", status := "NOT_STARTED",
              commands := [], tags := [] } }

/-- The parsed form of `rawGoodNode2`. -/
def lnodeB : LegacyNode :=
  { id := "n2", type_ := "custom", position := [("x", 100), ("y", 0)],
    data := { name := "Node two", description := "", status := "NOT_STARTED",
              commands := [], tags := [] } }

/-- The emissions of the completed run of `rawGood` under `nfW` (node 0
fails its write and is skipped without a progress update; node 1 and the
edge succeed). -/
def emsW : List (String × ℚ) :=
  [("Parsing legacy data", 10), ("Creating project", 20),
   ("Importing nodes", 30), ("Importing node 2/2", 70),
   ("Importing relationships", 70), ("Importing relationship 1/1", 90),
   ("Import completed", 100)]

/-- The result of the completed run of `rawGood` under `nfW`. -/
def rW : ImportResult :=
  { project_id := "uu", original_id := "p1",
    node_mappings := [("n1", "uuu"), ("n2", "uuuu")],
    edge_mappings := [("e1", "uuuuu")],
    imported_nodes := 1, imported_edges := 1,
    errors := ["Node Node one: boom"], warnings := [] }

/-- The graph writes of the completed run of `rawGood` under `nfW`. -/
def wsW : List LWrite :=
  [LWrite.createProject "uu" "Legacy", LWrite.setLegacyMeta "uu" "p1",
   LWrite.createNode "uuuu" "Node two",
   LWrite.createEdge "uuu" "uuuu" "uuuuu" "e1"]

/-- Fetched template data with a sensitive, non-empty variable value inside
a context, a command with an output, and a public root. -/
def tdW : TemplateFetched :=
  { template := { name := "T", is_public := true },
    contexts := [{ id := "c1",
                   variables_ := [{ name := "secret", value := "hunter2",
                                    sensitive := true }] }],
    commands := [{ id := "cmd1", output := some "out" }] }

/-! ## Theorems -/

theorem genW_injective : Function.Injective genW := by
  intro a b h
  have hdata := congrArg String.data h
  simp only [genW] at hdata
  have := congrArg List.length hdata
  simp only [List.length_replicate] at this
  omega

theorem genW_fresh_dataW : ∀ i, genW i ∉ entityIds dataW := by
  intro i h
  have he : entityIds dataW = ["a", "b", "c"] := by rfl
  rw [he] at h
  have hlen : (genW i).data.length = i + 2 := by
    simp [genW]
  simp only [List.mem_cons, List.not_mem_nil, or_false] at h
  rcases h with h | h | h <;> rw [h] at hlen <;> simp at hlen

theorem mapExcept_ok_length {α β : Type} {f : α → Except String β} {l : List α}
    {l' : List β} (h : mapExcept f l = Except.ok l') : l'.length = l.length := by
  induction l generalizing l' with
  | nil =>
    simp only [mapExcept, Except.ok.injEq] at h
    simp [← h]
  | cons a as ih =>
    rw [mapExcept] at h
    cases hfa : f a with
    | error e => rw [hfa] at h; exact absurd h (by simp)
    | ok b =>
      rw [hfa] at h
      cases hrec : mapExcept f as with
      | error e => rw [hrec] at h; exact absurd h (by simp)
      | ok bs =>
        rw [hrec] at h
        simp only [Except.ok.injEq] at h
        rw [← h]
        simp [ih hrec]

theorem mapExcept_ok_mem {α β : Type} {f : α → Except String β} {l : List α}
    {l' : List β} (h : mapExcept f l = Except.ok l') :
    ∀ b ∈ l', ∃ a ∈ l, f a = Except.ok b := by
  induction l generalizing l' with
  | nil =>
    simp only [mapExcept, Except.ok.injEq] at h
    subst h
    intro b hb
    exact absurd hb (List.not_mem_nil b)
  | cons a as ih =>
    rw [mapExcept] at h
    cases hfa : f a with
    | error e => rw [hfa] at h; exact absurd h (by simp)
    | ok b0 =>
      rw [hfa] at h
      cases hrec : mapExcept f as with
      | error e => rw [hrec] at h; exact absurd h (by simp)
      | ok bs =>
        rw [hrec] at h
        simp only [Except.ok.injEq] at h
        subst h
        intro b hb
        rcases List.mem_cons.mp hb with hb | hb
        · exact ⟨a, List.mem_cons_self a as, hb ▸ hfa⟩
        · obtain ⟨a', ha', hfa'⟩ := ih hrec b hb
          exact ⟨a', List.mem_cons_of_mem a ha', hfa'⟩

theorem mapExcept_ok_get {α β : Type} {f : α → Except String β} {l : List α}
    {l' : List β} (h : mapExcept f l = Except.ok l') :
    ∀ (i : Nat) a, l[i]? = some a → ∃ b, f a = Except.ok b ∧ l'[i]? = some b := by
  induction l generalizing l' with
  | nil =>
    intro i a ha
    simp at ha
  | cons x xs ih =>
    rw [mapExcept] at h
    cases hfa : f x with
    | error e => rw [hfa] at h; exact absurd h (by simp)
    | ok b0 =>
      rw [hfa] at h
      cases hrec : mapExcept f xs with
      | error e => rw [hrec] at h; exact absurd h (by simp)
      | ok bs =>
        rw [hrec] at h
        simp only [Except.ok.injEq] at h
        subst h
        intro i a ha
        cases i with
        | zero =>
          simp only [List.getElem?_cons_zero, Option.some.injEq] at ha
          subst ha
          exact ⟨b0, hfa, by simp⟩
        | succ j =>
          simp only [List.getElem?_cons_succ] at ha
          obtain ⟨b, hb, hb'⟩ := ih hrec j a ha
          exact ⟨b, hb, by simpa using hb'⟩

theorem dictGet_generate_eq_gen {gen : Nat → String} {data : ImportData}
    {k v : String}
    (h : dictGet (generate_uuid_map gen data) k = some v) :
    ∃ i : Nat, (entityIds data)[i]? = some k ∧ v = gen i := by
  unfold dictGet generate_uuid_map at h
  obtain ⟨q, hq, hv⟩ := Option.map_eq_some'.mp h
  have hqmem := List.mem_of_mem_getLast? (Option.mem_def.mpr hq)
  obtain ⟨hqw, hpk⟩ := List.mem_filter.mp hqmem
  have hk : q.1 = k := by simpa using hpk
  obtain ⟨p, hpmem, hpq⟩ := List.mem_map.mp hqw
  obtain ⟨i, x⟩ := p
  have hget : (entityIds data)[i]? = some x :=
    List.mk_mem_enum_iff_getElem?.mp hpmem
  refine ⟨i, ?_, ?_⟩
  · rw [hget]
    have : x = q.1 := by rw [← hpq]
    rw [this, hk]
  · rw [← hv, ← hpq]

theorem nodeStep_ok {m : List (String × String)} {n n' : PNode}
    (h : nodeStep m n = Except.ok n') :
    dictGet m n.id = some n'.id ∧ n'.parent_id = rewriteRef m n.parent_id := by
  unfold nodeStep dictGetMandatory at h
  cases hd : dictGet m n.id with
  | none => rw [hd] at h; exact absurd h (by simp)
  | some w =>
    rw [hd] at h
    simp only [Except.ok.injEq] at h
    subst h
    exact ⟨rfl, rfl⟩

theorem ctxStep_ok {m : List (String × String)} {c c' : PContext}
    (h : ctxStep m c = Except.ok c') : dictGet m c.id = some c'.id := by
  unfold ctxStep dictGetMandatory at h
  cases hd : dictGet m c.id with
  | none => rw [hd] at h; exact absurd h (by simp)
  | some w =>
    rw [hd] at h
    simp only [Except.ok.injEq] at h
    subst h
    exact rfl

theorem cmdStep_ok {m : List (String × String)} {c c' : PCommand}
    (h : cmdStep m c = Except.ok c') :
    dictGet m c.id = some c'.id ∧ c'.node_id = rewriteRef m c.node_id := by
  unfold cmdStep dictGetMandatory at h
  cases hd : dictGet m c.id with
  | none => rw [hd] at h; exact absurd h (by simp)
  | some w =>
    rw [hd] at h
    simp only [Except.ok.injEq] at h
    subst h
    exact ⟨rfl, rfl⟩

theorem varStep_ok {m : List (String × String)} {v v' : PVariable}
    (h : varStep m v = Except.ok v') :
    dictGet m v.id = some v'.id ∧ v'.context_id = rewriteRef m v.context_id := by
  unfold varStep dictGetMandatory at h
  cases hd : dictGet m v.id with
  | none => rw [hd] at h; exact absurd h (by simp)
  | some w =>
    rw [hd] at h
    simp only [Except.ok.injEq] at h
    subst h
    exact ⟨rfl, rfl⟩

theorem findStep_ok {m : List (String × String)} {f f' : PFinding}
    (h : findStep m f = Except.ok f') :
    dictGet m f.id = some f'.id ∧ f'.node_id = rewriteRef m f.node_id := by
  unfold findStep dictGetMandatory at h
  cases hd : dictGet m f.id with
  | none => rw [hd] at h; exact absurd h (by simp)
  | some w =>
    rw [hd] at h
    simp only [Except.ok.injEq] at h
    subst h
    exact ⟨rfl, rfl⟩

theorem assetStep_ok {m : List (String × String)} {a a' : PScopeAsset}
    (h : assetStep m a = Except.ok a') : dictGet m a.id = some a'.id := by
  unfold assetStep dictGetMandatory at h
  cases hd : dictGet m a.id with
  | none => rw [hd] at h; exact absurd h (by simp)
  | some w =>
    rw [hd] at h
    simp only [Except.ok.injEq] at h
    subst h
    exact rfl

theorem rewrite_uuids_ok_parts {data : ImportData} {m : List (String × String)}
    {d' : ImportData} (h : rewrite_uuids data m = Except.ok d') :
    mapExcept (nodeStep m) data.nodes = Except.ok d'.nodes ∧
    d'.relationships = data.relationships.map (relStep m) ∧
    mapExcept (ctxStep m) data.contexts = Except.ok d'.contexts ∧
    mapExcept (cmdStep m) data.commands = Except.ok d'.commands ∧
    mapExcept (varStep m) data.variables_ = Except.ok d'.variables_ ∧
    mapExcept (findStep m) data.findings = Except.ok d'.findings ∧
    mapExcept (assetStep m) data.scope_assets = Except.ok d'.scope_assets := by
  unfold rewrite_uuids at h
  cases h1 : mapExcept (nodeStep m) data.nodes with
  | error e => rw [h1] at h; exact absurd h (by simp)
  | ok ns =>
  rw [h1] at h
  cases h2 : mapExcept (ctxStep m) data.contexts with
  | error e => rw [h2] at h; exact absurd h (by simp)
  | ok cs =>
  rw [h2] at h
  cases h3 : mapExcept (cmdStep m) data.commands with
  | error e => rw [h3] at h; exact absurd h (by simp)
  | ok cmds =>
  rw [h3] at h
  cases h4 : mapExcept (varStep m) data.variables_ with
  | error e => rw [h4] at h; exact absurd h (by simp)
  | ok vs =>
  rw [h4] at h
  cases h5 : mapExcept (findStep m) data.findings with
  | error e => rw [h5] at h; exact absurd h (by simp)
  | ok fs =>
  rw [h5] at h
  cases h6 : mapExcept (assetStep m) data.scope_assets with
  | error e => rw [h6] at h; exact absurd h (by simp)
  | ok as_ =>
  rw [h6] at h
  simp only [Except.ok.injEq] at h
  subst h
  exact ⟨rfl, rfl, rfl, rfl, rfl, rfl, rfl⟩

/-- C1, counterexample.  The claim asserts that no two entities receive the
same new identifier.  On `dataDup` — accepted by the import pipeline, which
never checks identifier uniqueness — the node and the context share the old
identifier `"a"`; `generate_uuid_map` writes the key `"a"` twice (the second
write overwriting the first) and `rewrite_uuids` hands the surviving value
`genW 1 = "uuu"` to BOTH entities, so two distinct entities receive the same
new identifier.  The generator used is `genW`, which is injective
(`genW_injective`) and never returns a single-character input identifier, so
the collision is produced by the code, not by a degenerate UUID supply. -/
theorem c1_two_entities_share_new_id :
    rewrite_uuids dataDup (generate_uuid_map genW dataDup)
      = Except.ok { nodes := [{ id := "uuu" }], contexts := [{ id := "uuu" }] } := by
  rfl

/-- C1, amended: assuming the freshly generated UUIDs are pairwise distinct
and distinct from every identifier in the input snapshot (the model of
`uuid.uuid4()` randomness), every entity of the rewritten snapshot carries a
new identifier different from every identifier of the input, and the
old-to-new mapping is injective — entities with DISTINCT old identifiers
receive distinct new identifiers.  (As `c1_two_entities_share_new_id` shows,
two entities sharing one old identifier receive the same new identifier, so
the claim's per-entity phrasing is amended to injectivity of the map.) -/
theorem c1_remap_fresh_and_injective (gen : Nat → String) (data d' : ImportData)
    (hinj : Function.Injective gen)
    (hfresh : ∀ i, gen i ∉ entityIds data)
    (hok : rewrite_uuids data (generate_uuid_map gen data) = Except.ok d') :
    (∀ x ∈ entityIds d', x ∉ entityIds data) ∧
    (∀ k1 k2 v, dictGet (generate_uuid_map gen data) k1 = some v →
      dictGet (generate_uuid_map gen data) k2 = some v → k1 = k2) := by
  obtain ⟨hn, _, hc, hcmd, hv, hf, ha⟩ := rewrite_uuids_ok_parts hok
  constructor
  · intro x hx
    unfold entityIds at hx
    simp only [List.mem_append, List.mem_map] at hx
    have fresh_of_dg : ∀ o, dictGet (generate_uuid_map gen data) o = some x →
        x ∉ entityIds data := by
      intro o hdg
      obtain ⟨i, _, hx'⟩ := dictGet_generate_eq_gen hdg
      rw [hx']
      exact hfresh i
    rcases hx with ((((⟨n', hn', hid⟩ | ⟨c', hc', hid⟩) | ⟨c', hc', hid⟩) |
        ⟨v', hv', hid⟩) | ⟨f', hf', hid⟩) | ⟨a', ha', hid⟩
    · obtain ⟨n, _, hstep⟩ := mapExcept_ok_mem hn n' hn'
      exact fresh_of_dg n.id (hid ▸ (nodeStep_ok hstep).1)
    · obtain ⟨c, _, hstep⟩ := mapExcept_ok_mem hc c' hc'
      exact fresh_of_dg c.id (hid ▸ ctxStep_ok hstep)
    · obtain ⟨c, _, hstep⟩ := mapExcept_ok_mem hcmd c' hc'
      exact fresh_of_dg c.id (hid ▸ (cmdStep_ok hstep).1)
    · obtain ⟨v, _, hstep⟩ := mapExcept_ok_mem hv v' hv'
      exact fresh_of_dg v.id (hid ▸ (varStep_ok hstep).1)
    · obtain ⟨f, _, hstep⟩ := mapExcept_ok_mem hf f' hf'
      exact fresh_of_dg f.id (hid ▸ (findStep_ok hstep).1)
    · obtain ⟨a, _, hstep⟩ := mapExcept_ok_mem ha a' ha'
      exact fresh_of_dg a.id (hid ▸ assetStep_ok hstep)
  · intro k1 k2 v h1 h2
    obtain ⟨i1, hk1, hv1⟩ := dictGet_generate_eq_gen h1
    obtain ⟨i2, hk2, hv2⟩ := dictGet_generate_eq_gen h2
    have hi : i1 = i2 := hinj (hv1 ▸ hv2)
    rw [hi, hk2] at hk1
    exact (Option.some.injEq _ _ ▸ hk1).symm

/-- C1, witness: the amended theorem applied to the concrete snapshot
`dataW` (distinct ids `"a"`, `"b"`, `"c"`) and the injective fresh supply
`genW`, whose rewrite result is `outW`. -/
theorem c1_remap_fresh_and_injective_witness :
    (∀ x ∈ entityIds outW, x ∉ entityIds dataW) ∧
    (∀ k1 k2 v, dictGet (generate_uuid_map genW dataW) k1 = some v →
      dictGet (generate_uuid_map genW dataW) k2 = some v → k1 = k2) :=
  c1_remap_fresh_and_injective genW dataW outW genW_injective genW_fresh_dataW
    (by rfl)

/-- C5, counterexample.  On `dataRel` the identifier map is empty, so the
relationship's `source` and `target` are dangling references.  The claim
says the remapper drops the referencing entity, records a Warning, and never
leaves the unmapped old identifier in the output; instead `rewrite_uuids`
returns the payload unchanged: the relationship is kept, both old
identifiers `"x"` and `"y"` remain in the output, and no warning exists
(`rewrite_uuids` has no warning channel at all). -/
theorem c5_dangling_reference_kept_counterexample :
    rewrite_uuids dataRel (generate_uuid_map genW dataRel)
      = Except.ok dataRel := by
  rfl

/-- C5, amended: a reference field whose old value is not in the identifier
map is NOT dropped and produces no warning; the referencing entity is kept
at its position (collection lengths are preserved) and the unmapped old
identifier is left unchanged in the rewritten output (edge endpoints,
command `node_id`, variable `context_id`, finding `node_id`). -/
theorem c5_dangling_reference_kept (data : ImportData)
    (m : List (String × String)) (d' : ImportData)
    (hok : rewrite_uuids data m = Except.ok d') :
    d'.relationships.length = data.relationships.length ∧
    d'.commands.length = data.commands.length ∧
    d'.variables_.length = data.variables_.length ∧
    d'.findings.length = data.findings.length ∧
    (∀ (i : Nat) r, data.relationships[i]? = some r →
      d'.relationships[i]? = some (relStep m r)) ∧
    (∀ r : PRel, dictMem m r.source = false → (relStep m r).source = r.source) ∧
    (∀ r : PRel, dictMem m r.target = false → (relStep m r).target = r.target) ∧
    (∀ (i : Nat) c x, data.commands[i]? = some c → c.node_id = some x →
      dictMem m x = false →
      ∃ c', d'.commands[i]? = some c' ∧ c'.node_id = some x) ∧
    (∀ (i : Nat) v x, data.variables_[i]? = some v → v.context_id = some x →
      dictMem m x = false →
      ∃ v', d'.variables_[i]? = some v' ∧ v'.context_id = some x) ∧
    (∀ (i : Nat) f x, data.findings[i]? = some f → f.node_id = some x →
      dictMem m x = false →
      ∃ f', d'.findings[i]? = some f' ∧ f'.node_id = some x) := by
  obtain ⟨_, hrel, _, hcmd, hv, hf, _⟩ := rewrite_uuids_ok_parts hok
  have hkeep : ∀ x, dictMem m x = false → rewriteRef m (some x) = some x := by
    intro x hx
    simp [rewriteRef, hx]
  refine ⟨?_, mapExcept_ok_length hcmd, mapExcept_ok_length hv,
    mapExcept_ok_length hf, ?_, ?_, ?_, ?_, ?_, ?_⟩
  · rw [hrel, List.length_map]
  · intro i r hr
    rw [hrel, List.getElem?_map, hr]
    rfl
  · intro r hr
    simp [relStep, rewriteEndpoint, hr]
  · intro r hr
    simp [relStep, rewriteEndpoint, hr]
  · intro i c x hi hx hmem
    obtain ⟨c', hstep, hi'⟩ := mapExcept_ok_get hcmd i c hi
    refine ⟨c', hi', ?_⟩
    rw [(cmdStep_ok hstep).2, hx, hkeep x hmem]
  · intro i v x hi hx hmem
    obtain ⟨v', hstep, hi'⟩ := mapExcept_ok_get hv i v hi
    refine ⟨v', hi', ?_⟩
    rw [(varStep_ok hstep).2, hx, hkeep x hmem]
  · intro i f x hi hx hmem
    obtain ⟨f', hstep, hi'⟩ := mapExcept_ok_get hf i f hi
    refine ⟨f', hi', ?_⟩
    rw [(findStep_ok hstep).2, hx, hkeep x hmem]

/-- C5, witness: the amended theorem applied to `dataW`, whose command
carries the dangling reference `"zz"`; the rewrite result is `outW` and the
command keeps `node_id = "zz"`. -/
theorem c5_dangling_reference_kept_witness :
    outW.relationships.length = dataW.relationships.length ∧
    outW.commands.length = dataW.commands.length ∧
    outW.variables_.length = dataW.variables_.length ∧
    outW.findings.length = dataW.findings.length ∧
    (∀ (i : Nat) r, dataW.relationships[i]? = some r →
      outW.relationships[i]? = some (relStep (generate_uuid_map genW dataW) r)) ∧
    (∀ r : PRel, dictMem (generate_uuid_map genW dataW) r.source = false →
      (relStep (generate_uuid_map genW dataW) r).source = r.source) ∧
    (∀ r : PRel, dictMem (generate_uuid_map genW dataW) r.target = false →
      (relStep (generate_uuid_map genW dataW) r).target = r.target) ∧
    (∀ (i : Nat) c x, dataW.commands[i]? = some c → c.node_id = some x →
      dictMem (generate_uuid_map genW dataW) x = false →
      ∃ c', outW.commands[i]? = some c' ∧ c'.node_id = some x) ∧
    (∀ (i : Nat) v x, dataW.variables_[i]? = some v → v.context_id = some x →
      dictMem (generate_uuid_map genW dataW) x = false →
      ∃ v', outW.variables_[i]? = some v' ∧ v'.context_id = some x) ∧
    (∀ (i : Nat) f x, dataW.findings[i]? = some f → f.node_id = some x →
      dictMem (generate_uuid_map genW dataW) x = false →
      ∃ f', outW.findings[i]? = some f' ∧ f'.node_id = some x) :=
  c5_dangling_reference_kept dataW (generate_uuid_map genW dataW) outW (by rfl)

/-- C9, counterexample.  On `dataDup` the identifier `"a"` occurs in two
entity collections; `generate_uuid_map` performs TWO writes of the key
`"a"`, the second reassigning it from `"uu"` to `"uuu"` — so the map is not
write-once as claimed. -/
theorem c9_uuid_map_write_once_counterexample :
    generate_uuid_map genW dataDup = [("a", "uu"), ("a", "uuu")] := by
  rfl

/-- C9, amended: `generate_uuid_map` performs exactly one map write per
entity occurrence, in visit order (the written keys are exactly
`entityIds data`); consequently, WHEN the entity identifiers of the input
are pairwise distinct, each old identifier is written exactly once and never
reassigned.  When the same identifier occurs in more than one collection it
is written once per occurrence, the later write reassigning it
(`c9_uuid_map_write_once_counterexample`). -/
theorem c9_uuid_map_write_once_of_distinct_ids (gen : Nat → String)
    (data : ImportData) :
    (generate_uuid_map gen data).map Prod.fst = entityIds data ∧
    ((entityIds data).Nodup → ((generate_uuid_map gen data).map Prod.fst).Nodup) := by
  have hfst : (generate_uuid_map gen data).map Prod.fst = entityIds data := by
    unfold generate_uuid_map
    rw [List.map_map]
    have hcomp : (Prod.fst ∘ fun p : Nat × String => (p.2, gen p.1))
        = (Prod.snd : Nat × String → String) := rfl
    rw [hcomp, List.enum_map_snd]
  exact ⟨hfst, fun h => hfst ▸ h⟩

/-- C9, witness: the amended theorem applied to `dataW`, whose entity ids
`["a", "b", "c"]` are pairwise distinct; the `Nodup` hypothesis of the
second conjunct is discharged by computation. -/
theorem c9_uuid_map_write_once_of_distinct_ids_witness :
    (generate_uuid_map genW dataW).map Prod.fst = entityIds dataW ∧
    ((generate_uuid_map genW dataW).map Prod.fst).Nodup :=
  ⟨(c9_uuid_map_write_once_of_distinct_ids genW dataW).1,
   (c9_uuid_map_write_once_of_distinct_ids genW dataW).2 (by decide)⟩

/-- C2: in the symbolic AEAD/KDF model, decrypting the `(salt, nonce,
ciphertext)` triple produced by `encrypt_data(m, p)` with the same password
returns exactly `m`, and decrypting it with any different password fails
with the generic authentication error, returning no plaintext. -/
theorem c2_encrypt_decrypt_roundtrip_and_auth (data : Bytes) (pw pw' : String)
    (salt nonce : Bytes) (hne : pw' ≠ pw) :
    decrypt_data (encrypt_data data pw salt nonce).2.2 pw salt nonce
      = Except.ok data ∧
    decrypt_data (encrypt_data data pw salt nonce).2.2 pw' salt nonce
      = Except.error AuthError.invalidTag := by
  constructor
  · simp [encrypt_data, decrypt_data, aesgcm_encrypt, aesgcm_decrypt]
  · have hkey : pbkdf2_sha256 pw salt ≠ pbkdf2_sha256 pw' salt := by
      intro h
      exact hne (congrArg DerivedKey.password h).symm
    simp [encrypt_data, decrypt_data, aesgcm_encrypt, aesgcm_decrypt, hkey]

/-- C2, witness: the round trip and the wrong-password failure at the
concrete message `[1, 2, 3]`, password `"correct-horse"`, wrong password
`"wrong"`. -/
theorem c2_encrypt_decrypt_roundtrip_and_auth_witness :
    decrypt_data (encrypt_data [1, 2, 3] "correct-horse" [0] [7]).2.2
      "correct-horse" [0] [7] = Except.ok [1, 2, 3] ∧
    decrypt_data (encrypt_data [1, 2, 3] "correct-horse" [0] [7]).2.2
      "wrong" [0] [7] = Except.error AuthError.invalidTag :=
  c2_encrypt_decrypt_roundtrip_and_auth [1, 2, 3] "correct-horse" "wrong"
    [0] [7] (by decide)

theorem dictGet_generate_isSome {gen : Nat → String} {data : ImportData}
    {k : String} (hk : k ∈ entityIds data) :
    (dictGet (generate_uuid_map gen data) k).isSome := by
  obtain ⟨i, hi⟩ := List.mem_iff_getElem?.mp hk
  have hmem : ((i, k) : Nat × String) ∈ (entityIds data).enum :=
    List.mk_mem_enum_iff_getElem?.mpr hi
  have hw : (k, gen i) ∈ generate_uuid_map gen data := by
    unfold generate_uuid_map
    exact List.mem_map.mpr ⟨(i, k), hmem, rfl⟩
  have hf : (k, gen i) ∈ (generate_uuid_map gen data).filter (fun p => p.1 = k) :=
    List.mem_filter.mpr ⟨hw, by simp⟩
  have hne : (generate_uuid_map gen data).filter (fun p => p.1 = k) ≠ [] :=
    List.ne_nil_of_mem hf
  obtain ⟨q, hq⟩ := Option.isSome_iff_exists.mp (List.getLast?_isSome.mpr hne)
  unfold dictGet
  rw [hq]
  rfl

theorem mapExcept_ok_of_forall {α β : Type} {f : α → Except String β}
    {l : List α} (h : ∀ a ∈ l, ∃ b, f a = Except.ok b) :
    ∃ l', mapExcept f l = Except.ok l' := by
  induction l with
  | nil => exact ⟨[], rfl⟩
  | cons a as ih =>
    obtain ⟨b, hb⟩ := h a (List.mem_cons_self a as)
    obtain ⟨l', hl'⟩ := ih (fun x hx => h x (List.mem_cons_of_mem a hx))
    exact ⟨b :: l', by rw [mapExcept, hb, hl']⟩

theorem rewrite_uuids_generate_ok (gen : Nat → String) (data : ImportData) :
    ∃ d', rewrite_uuids data (generate_uuid_map gen data) = Except.ok d' := by
  have hmand : ∀ k, k ∈ entityIds data →
      ∃ v, dictGetMandatory (generate_uuid_map gen data) k = Except.ok v := by
    intro k hk
    obtain ⟨v, hv⟩ := Option.isSome_iff_exists.mp
      (@dictGet_generate_isSome gen data k hk)
    exact ⟨v, by unfold dictGetMandatory; rw [hv]⟩
  obtain ⟨ns, hns⟩ := @mapExcept_ok_of_forall _ _
    (nodeStep (generate_uuid_map gen data)) data.nodes (by
      intro n hn
      obtain ⟨v, hv⟩ := hmand n.id (by
        unfold entityIds
        simp only [List.mem_append, List.mem_map]
        exact Or.inl (Or.inl (Or.inl (Or.inl (Or.inl ⟨n, hn, rfl⟩)))))
      exact ⟨_, by unfold nodeStep; rw [hv]⟩)
  obtain ⟨cs, hcs⟩ := @mapExcept_ok_of_forall _ _
    (ctxStep (generate_uuid_map gen data)) data.contexts (by
      intro c hc
      obtain ⟨v, hv⟩ := hmand c.id (by
        unfold entityIds
        simp only [List.mem_append, List.mem_map]
        exact Or.inl (Or.inl (Or.inl (Or.inl (Or.inr ⟨c, hc, rfl⟩)))))
      exact ⟨_, by unfold ctxStep; rw [hv]⟩)
  obtain ⟨cmds, hcmds⟩ := @mapExcept_ok_of_forall _ _
    (cmdStep (generate_uuid_map gen data)) data.commands (by
      intro c hc
      obtain ⟨v, hv⟩ := hmand c.id (by
        unfold entityIds
        simp only [List.mem_append, List.mem_map]
        exact Or.inl (Or.inl (Or.inl (Or.inr ⟨c, hc, rfl⟩))))
      exact ⟨_, by unfold cmdStep; rw [hv]⟩)
  obtain ⟨vs, hvs⟩ := @mapExcept_ok_of_forall _ _
    (varStep (generate_uuid_map gen data)) data.variables_ (by
      intro v hvm
      obtain ⟨w, hw⟩ := hmand v.id (by
        unfold entityIds
        simp only [List.mem_append, List.mem_map]
        exact Or.inl (Or.inl (Or.inr ⟨v, hvm, rfl⟩)))
      exact ⟨_, by unfold varStep; rw [hw]⟩)
  obtain ⟨fs, hfs⟩ := @mapExcept_ok_of_forall _ _
    (findStep (generate_uuid_map gen data)) data.findings (by
      intro fd hfd
      obtain ⟨w, hw⟩ := hmand fd.id (by
        unfold entityIds
        simp only [List.mem_append, List.mem_map]
        exact Or.inl (Or.inr ⟨fd, hfd, rfl⟩))
      exact ⟨_, by unfold findStep; rw [hw]⟩)
  obtain ⟨as_, has⟩ := @mapExcept_ok_of_forall _ _
    (assetStep (generate_uuid_map gen data)) data.scope_assets (by
      intro a ha
      obtain ⟨w, hw⟩ := hmand a.id (by
        unfold entityIds
        simp only [List.mem_append, List.mem_map]
        exact Or.inr ⟨a, ha, rfl⟩)
      exact ⟨_, by unfold assetStep; rw [hw]⟩)
  have hd : rewrite_uuids data (generate_uuid_map gen data) =
      Except.ok { data with
        nodes := ns,
        relationships := data.relationships.map
          (relStep (generate_uuid_map gen data)),
        contexts := cs, commands := cmds, variables_ := vs, findings := fs,
        scope_assets := as_ } := by
    unfold rewrite_uuids
    rw [hns, hcs, hcmds, hvs, hfs, has]
  exact ⟨_, hd⟩

/-- C3: the data segment of every template export — whatever the caller
supplied as encryption method or password — has an empty variable list in
every context, no top-level `variables` key, and no `findings` key at all
(the payload dict is built from `_fetch_template_data`, which never queries
findings, and sanitized unconditionally before the encryption branch). -/
theorem c3_template_export_redaction (td : TemplateFetched)
    (em : EncryptionMethod) (pw : Option String) (c : TemplateContainer)
    (hok : export_template td em pw = Except.ok c) :
    c.payload = export_template_payload td ∧
    (∀ ctx ∈ c.payload.contexts, ctx.variables_ = []) ∧
    (∀ cmd ∈ c.payload.commands, cmd.output = none) ∧
    "findings" ∉ template_payload_keys ∧
    "variables" ∉ template_payload_keys := by
  have hc : c.payload = export_template_payload td := by
    unfold export_template at hok
    split at hok
    · exact absurd hok (by simp)
    · simp only [Except.ok.injEq] at hok
      rw [← hok]
  refine ⟨hc, ?_, ?_, by decide, by decide⟩
  · intro ctx hctx
    rw [hc] at hctx
    simp only [export_template_payload, sanitize_template_data,
      List.mem_map] at hctx
    obtain ⟨c0, _, hc0⟩ := hctx
    rw [← hc0]
  · intro cmd hcmd
    rw [hc] at hcmd
    simp only [export_template_payload, sanitize_template_data,
      List.mem_map] at hcmd
    obtain ⟨c0, _, hc0⟩ := hcmd
    rw [← hc0]

/-- C3, witness: the redaction theorem at the concrete fetched data `tdW`
(a sensitive non-empty variable value inside a context and a command
output), exported with password encryption. -/
theorem c3_template_export_redaction_witness :
    (export_template_payload tdW).contexts.all (fun ctx => ctx.variables_ = []) = true ∧
    ((export_template tdW EncryptionMethod.passwordM (some "pw")).toOption.map
      (fun c => c.payload) = some (export_template_payload tdW)) := by
  have h := c3_template_export_redaction tdW EncryptionMethod.passwordM
    (some "pw") { payload := export_template_payload tdW, encrypted := true }
    (by rfl)
  refine ⟨?_, by rw [show export_template tdW EncryptionMethod.passwordM (some "pw")
    = Except.ok { payload := export_template_payload tdW, encrypted := true } from rfl]; rfl⟩
  rw [List.all_eq_true]
  intro ctx hctx
  exact decide_eq_true (h.2.1 ctx hctx)

/-- C6 (code bug): a readable, non-empty zip container with a well-formed
`metadata.json` but no data segment (`data.json` / `data.enc` absent).  The
claim requires a distinct invalid-container error; instead
`zf.read('data.json')` raises `KeyError`, the generic `except Exception`
handler at the bottom of `preview_import` evaluates `logger.error(...)`,
and `logger` is not defined anywhere in `import_service.py`, so the handler
itself raises `NameError` — an unhandled fault escapes to the caller. -/
theorem c6_missing_data_segment_raises_namerror :
    preview_import fileNoData none = PreviewOutcome.raised nameErrorLogger := by
  rfl

/-- C7: selecting mode `"merge"` with a target project id on a decodable
container makes `import_project` deliver the `NotImplementedError` raised
by `_merge_into_project` — wrapped by the outer handler into the explicit
message `Import failed: Merge mode not yet implemented` — and issue zero
graph writes (no entity is created). -/
theorem c7_merge_mode_not_implemented (f : PFile) (pw : Option String)
    (tid : String) (gen : Nat → String) (z : ZipC) (md : Metadata)
    (data : ImportData)
    (hz : f.zip = some z) (hm : "metadata.json" ∈ z.names)
    (hmd : z.metaParse = Except.ok md)
    (hfmt : md.format = some "pwnflow-project")
    (henc : "data.enc" ∉ z.names) (hdj : "data.json" ∈ z.names)
    (hdata : z.dataParse = Except.ok data) (htid : tid ≠ "") :
    import_project f pw "merge" (some tid) gen
      = (Except.error "Import failed: Merge mode not yet implemented", []) := by
  obtain ⟨d', hd'⟩ := rewrite_uuids_generate_ok gen data
  simp [import_project, readDataSegment, hz, hm, hmd, hfmt, henc, hdj, hdata,
    hd', optTruthy, htid]

/-- C7, witness: the merge-mode theorem applied to the concrete decodable
container `fileW` with target project id `"t1"`. -/
theorem c7_merge_mode_not_implemented_witness :
    import_project fileW none "merge" (some "t1") genW
      = (Except.error "Import failed: Merge mode not yet implemented", []) :=
  c7_merge_mode_not_implemented fileW none "t1" genW _ mdProject
    { dataW with project := some { name := "p" } }
    rfl (by decide) rfl rfl (by decide) (by decide) rfl (by decide)

theorem create_template_public_false {data : ImportData} {gen : Nat → String}
    {ctr : Nat} {tid : String} {ws : List GWrite}
    (h : create_template data gen ctr = Except.ok (tid, ws)) :
    ∀ w ∈ ws, ∀ id name desc pub cats,
      w = GWrite.createTemplate id name desc pub cats → pub = false := by
  unfold create_template at h
  cases hti : data.template with
  | none => rw [hti] at h; exact absurd h (by simp)
  | some info =>
    rw [hti] at h
    simp only [Except.ok.injEq, Prod.mk.injEq] at h
    obtain ⟨-, hws⟩ := h
    intro w hw id name desc pub cats heq
    rw [← hws] at hw
    rcases List.mem_cons.mp hw with hw | hw
    · rw [heq] at hw
      cases hw
      rfl
    · exfalso
      subst heq
      simp only [List.mem_append] at hw
      rcases hw with ((hw | hw) | hw) | hw
      · obtain ⟨n, -, hn⟩ := List.mem_flatMap.mp hw
        rcases List.mem_cons.mp hn with hn | hn
        · exact GWrite.noConfusion hn
        · obtain ⟨t, -, ht⟩ := List.mem_map.mp hn
          exact GWrite.noConfusion ht
      · obtain ⟨r, -, hr⟩ := List.mem_map.mp hw
        exact GWrite.noConfusion hr
      · obtain ⟨c0, -, hc⟩ := List.mem_map.mp hw
        exact GWrite.noConfusion hc
      · obtain ⟨c0, -, hc⟩ := List.mem_flatMap.mp hw
        cases hcn : c0.node_id with
        | none => rw [hcn] at hc; exact absurd hc (by simp)
        | some nid =>
          rw [hcn] at hc
          by_cases hne : nid = ""
          · simp [hne] at hc
          · simp [hne] at hc

/-- C10: every `createTemplate` write issued by a template import carries
`is_public = false`, for every input container — the Cypher `CREATE` in
`_create_template` hardcodes `is_public: false` and never reads the
payload's or the metadata's `is_public`. -/
theorem c10_imported_template_is_private (f : PFile) (pw : Option String)
    (gen : Nat → String) (w : GWrite)
    (hw : w ∈ (import_template f pw gen).2)
    (id name desc : String) (pub : Bool) (cats : List String)
    (heq : w = GWrite.createTemplate id name desc pub cats) : pub = false := by
  cases hz : f.zip with
  | none => simp [import_template, hz] at hw
  | some z =>
    by_cases hm : "metadata.json" ∈ z.names
    · cases hmd : z.metaParse with
      | error e => simp [import_template, hz, hm, hmd] at hw
      | ok md =>
        by_cases hfmt : md.format = some "pwnflow-template"
        · cases hds : readDataSegment z pw with
          | error e => simp [import_template, hz, hm, hmd, hfmt, hds] at hw
          | ok data =>
            cases hrw : rewrite_uuids data (generate_uuid_map gen data) with
            | error e =>
              simp [import_template, hz, hm, hmd, hfmt, hds, hrw] at hw
            | ok data' =>
              cases hct : create_template data' gen (entityIds data).length with
              | error e =>
                simp [import_template, hz, hm, hmd, hfmt, hds, hrw, hct] at hw
              | ok p =>
                simp only [import_template, hz, hm, hmd, hfmt, hds, hrw, hct,
                  not_true_eq_false, if_false, ite_not] at hw
                exact create_template_public_false hct w
                  (by simpa using hw) id name desc pub cats heq
        · simp [import_template, hz, hm, hmd, hfmt] at hw
    · simp [import_template, hz, hm] at hw

/-- C10, witness: importing the concrete container `fileT`, whose template
data declares `is_public = true`, issues as its first graph write a
`createTemplate` with `is_public = false`; the theorem applied to that
write gives `false = false`. -/
theorem c10_imported_template_is_private_witness :
    (import_template fileT none genW).2.head?
      = some (GWrite.createTemplate "uu" "T (Imported)" "" false []) ∧
    (false : Bool) = false :=
  ⟨by rfl,
   c10_imported_template_is_private fileT none genW
     (GWrite.createTemplate "uu" "T (Imported)" "" false [])
     (by decide) "uu" "T (Imported)" "" false [] rfl⟩

theorem progress_value_bounds (base inc : ℚ) (hinc : 0 < inc) (len j : Nat)
    (hj : j < len) :
    base < base + ((j : ℚ) + 1) * (inc / (max len 1 : ℚ)) ∧
    base + ((j : ℚ) + 1) * (inc / (max len 1 : ℚ)) ≤ base + inc := by
  have hM : (0 : ℚ) < max (len : ℚ) 1 :=
    lt_of_lt_of_le zero_lt_one (le_max_right _ _)
  have hppos : 0 < inc / max (len : ℚ) 1 := div_pos hinc hM
  constructor
  · have hpos : 0 < ((j : ℚ) + 1) * (inc / max (len : ℚ) 1) :=
      mul_pos (by positivity) hppos
    linarith
  · have hj1 : ((j : ℚ) + 1) ≤ max (len : ℚ) 1 := by
      have hq : ((j : ℚ) + 1) ≤ (len : ℚ) := by exact_mod_cast hj
      exact le_trans hq (le_max_left _ _)
    have hle : ((j : ℚ) + 1) * (inc / max (len : ℚ) 1)
        ≤ max (len : ℚ) 1 * (inc / max (len : ℚ) 1) :=
      mul_le_mul_of_nonneg_right hj1 (le_of_lt hppos)
    have heq : max (len : ℚ) 1 * (inc / max (len : ℚ) 1) = inc := by
      field_simp
    linarith

theorem importNodesGo_emissions_spec (nf : Nat → Option String)
    (gen : Nat → String) (n : Nat) (ppn : ℚ) (hppn : 0 ≤ ppn) :
    ∀ (nodes : List LegacyNode) (i : Nat) (acc : LegAcc),
      ∃ Δ, (importNodesGo nf gen n ppn nodes i acc).emissions
          = acc.emissions ++ Δ ∧
        (∀ p ∈ Δ, ∃ j : Nat, i ≤ j ∧ j < i + nodes.length ∧
          p.2 = 30 + ((j : ℚ) + 1) * ppn) ∧
        List.Pairwise (fun a b : String × ℚ => a.2 ≤ b.2) Δ := by
  intro nodes
  induction nodes with
  | nil =>
    intro i acc
    exact ⟨[], by simp [importNodesGo], by simp, by simp⟩
  | cons nd rest ih =>
    intro i acc
    simp only [importNodesGo]
    cases hnf : nf i with
    | some msg =>
      obtain ⟨Δ, hΔ, hmem, hpw⟩ := ih (i + 1) _
      refine ⟨Δ, hΔ, ?_, hpw⟩
      intro p hp
      obtain ⟨j, hij, hjl, hv⟩ := hmem p hp
      exact ⟨j, by omega, by simp; omega, hv⟩
    | none =>
      obtain ⟨Δ, hΔ, hmem, hpw⟩ := ih (i + 1) _
      refine ⟨("Importing node " ++ toString (i + 1) ++ "/" ++ toString n,
        30 + ((i : ℚ) + 1) * ppn) :: Δ, ?_, ?_, ?_⟩
      · rw [hΔ]
        simp
      · intro p hp
        rcases List.mem_cons.mp hp with hp | hp
        · exact ⟨i, le_refl i, by simp, by rw [hp]⟩
        · obtain ⟨j, hij, hjl, hv⟩ := hmem p hp
          exact ⟨j, by omega, by simp; omega, hv⟩
      · rw [List.pairwise_cons]
        refine ⟨?_, hpw⟩
        intro b hb
        obtain ⟨j, hij, hjl, hv⟩ := hmem b hb
        rw [hv]
        have hcast : ((i : ℚ) + 1) ≤ ((j : ℚ) + 1) := by
          have : (i : ℚ) ≤ (j : ℚ) := by exact_mod_cast le_trans (Nat.le_succ i) hij
          linarith
        have := mul_le_mul_of_nonneg_right hcast hppn
        simp only []
        linarith

theorem importEdgesGo_emissions_spec (ef : Nat → Option String)
    (gen : Nat → String) (m : Nat) (ppe : ℚ) (hppe : 0 ≤ ppe) :
    ∀ (edges : List LegacyEdge) (i : Nat) (acc : LegAcc),
      ∃ Δ, (importEdgesGo ef gen m ppe edges i acc).emissions
          = acc.emissions ++ Δ ∧
        (∀ p ∈ Δ, ∃ j : Nat, i ≤ j ∧ j < i + edges.length ∧
          p.2 = 70 + ((j : ℚ) + 1) * ppe) ∧
        List.Pairwise (fun a b : String × ℚ => a.2 ≤ b.2) Δ := by
  intro edges
  induction edges with
  | nil =>
    intro i acc
    exact ⟨[], by simp [importEdgesGo], by simp, by simp⟩
  | cons e rest ih =>
    intro i acc
    simp only [importEdgesGo]
    by_cases hskip : optTruthy (dictGet acc.node_mappings e.source) = false ∨
        optTruthy (dictGet acc.node_mappings e.target) = false
    · rw [if_pos hskip]
      obtain ⟨Δ, hΔ, hmem, hpw⟩ := ih (i + 1) _
      refine ⟨Δ, hΔ, ?_, hpw⟩
      intro p hp
      obtain ⟨j, hij, hjl, hv⟩ := hmem p hp
      exact ⟨j, by omega, by simp; omega, hv⟩
    · rw [if_neg hskip]
      cases hef : ef i with
      | some msg =>
        obtain ⟨Δ, hΔ, hmem, hpw⟩ := ih (i + 1) _
        refine ⟨Δ, hΔ, ?_, hpw⟩
        intro p hp
        obtain ⟨j, hij, hjl, hv⟩ := hmem p hp
        exact ⟨j, by omega, by simp; omega, hv⟩
      | none =>
        obtain ⟨Δ, hΔ, hmem, hpw⟩ := ih (i + 1) _
        refine ⟨("Importing relationship " ++ toString (i + 1) ++ "/" ++
          toString m, 70 + ((i : ℚ) + 1) * ppe) :: Δ, ?_, ?_, ?_⟩
        · rw [hΔ]
          simp
        · intro p hp
          rcases List.mem_cons.mp hp with hp | hp
          · exact ⟨i, le_refl i, by simp, by rw [hp]⟩
          · obtain ⟨j, hij, hjl, hv⟩ := hmem p hp
            exact ⟨j, by omega, by simp; omega, hv⟩
        · rw [List.pairwise_cons]
          refine ⟨?_, hpw⟩
          intro b hb
          obtain ⟨j, hij, hjl, hv⟩ := hmem b hb
          rw [hv]
          have hcast : ((i : ℚ) + 1) ≤ ((j : ℚ) + 1) := by
            have : (i : ℚ) ≤ (j : ℚ) := by
              exact_mod_cast le_trans (Nat.le_succ i) hij
            linarith
          have := mul_le_mul_of_nonneg_right hcast hppe
          simp only []
          linarith

theorem assembled_progress_props (A B : List (String × ℚ)) (t : Bool)
    (E : List (String × ℚ))
    (hA : ∀ p ∈ A, 30 < p.2 ∧ p.2 ≤ 70)
    (hApw : List.Pairwise (fun a b : String × ℚ => a.2 ≤ b.2) A)
    (hB : ∀ p ∈ B, 70 < p.2 ∧ p.2 ≤ 90)
    (hBpw : List.Pairwise (fun a b : String × ℚ => a.2 ≤ b.2) B)
    (hE : E = ("Parsing legacy data", (10 : ℚ)) :: ("Creating project", 20) ::
      ("Importing nodes", 30) :: (A ++ (("Importing relationships", 70) ::
        (B ++ ((if t then [("Importing template", (90 : ℚ))] else []) ++
          [("Import completed", 100)]))))) :
    List.Chain' (· ≤ ·) (E.map Prod.snd) ∧
    (∀ p ∈ E.map Prod.snd, 0 ≤ p ∧ p ≤ 100) ∧
    (E.map Prod.snd).count 100 = 1 ∧
    E.getLast? = some ("Import completed", 100) := by
  subst hE
  have hT : ∀ x ∈ (if t then [("Importing template", (90 : ℚ))] else []) ++
      [("Import completed", (100 : ℚ))], 90 ≤ x.2 ∧ x.2 ≤ 100 := by
    cases t <;> simp <;> norm_num
  have hTpw : List.Pairwise (fun a b : String × ℚ => a.2 ≤ b.2)
      ((if t then [("Importing template", (90 : ℚ))] else []) ++
        [("Import completed", (100 : ℚ))]) := by
    cases t <;> simp <;> norm_num
  have hBT : ∀ x ∈ B ++ ((if t then [("Importing template", (90 : ℚ))] else [])
      ++ [("Import completed", (100 : ℚ))]), 70 < x.2 ∧ x.2 ≤ 100 := by
    intro x hx
    rcases List.mem_append.mp hx with hx | hx
    · obtain ⟨h1, h2⟩ := hB x hx
      exact ⟨h1, by linarith⟩
    · obtain ⟨h1, h2⟩ := hT x hx
      exact ⟨by linarith, h2⟩
  have hBTpw : List.Pairwise (fun a b : String × ℚ => a.2 ≤ b.2)
      (B ++ ((if t then [("Importing template", (90 : ℚ))] else [])
        ++ [("Import completed", (100 : ℚ))])) := by
    rw [List.pairwise_append]
    refine ⟨hBpw, hTpw, ?_⟩
    intro a ha b hb
    exact le_trans (hB a ha).2 (hT b hb).1
  have hRel : ∀ x ∈ ("Importing relationships", (70 : ℚ)) ::
      (B ++ ((if t then [("Importing template", (90 : ℚ))] else [])
        ++ [("Import completed", (100 : ℚ))])), 70 ≤ x.2 ∧ x.2 ≤ 100 := by
    intro x hx
    rcases List.mem_cons.mp hx with hx | hx
    · rw [hx]; norm_num
    · obtain ⟨h1, h2⟩ := hBT x hx
      exact ⟨le_of_lt h1, h2⟩
  have hRelpw : List.Pairwise (fun a b : String × ℚ => a.2 ≤ b.2)
      (("Importing relationships", (70 : ℚ)) ::
        (B ++ ((if t then [("Importing template", (90 : ℚ))] else [])
          ++ [("Import completed", (100 : ℚ))]))) := by
    rw [List.pairwise_cons]
    exact ⟨fun b hb => (hBT b hb).1.le, hBTpw⟩
  have hAT : ∀ x ∈ A ++ (("Importing relationships", (70 : ℚ)) ::
      (B ++ ((if t then [("Importing template", (90 : ℚ))] else [])
        ++ [("Import completed", (100 : ℚ))]))), 30 < x.2 ∧ x.2 ≤ 100 := by
    intro x hx
    rcases List.mem_append.mp hx with hx | hx
    · obtain ⟨h1, h2⟩ := hA x hx
      exact ⟨h1, by linarith⟩
    · obtain ⟨h1, h2⟩ := hRel x hx
      exact ⟨by linarith, h2⟩
  have hATpw : List.Pairwise (fun a b : String × ℚ => a.2 ≤ b.2)
      (A ++ (("Importing relationships", (70 : ℚ)) ::
        (B ++ ((if t then [("Importing template", (90 : ℚ))] else [])
          ++ [("Import completed", (100 : ℚ))])))) := by
    rw [List.pairwise_append]
    refine ⟨hApw, hRelpw, ?_⟩
    intro a ha b hb
    exact le_trans (hA a ha).2 (hRel b hb).1
  have hwholepw : List.Pairwise (fun a b : String × ℚ => a.2 ≤ b.2)
      (("Parsing legacy data", (10 : ℚ)) :: ("Creating project", 20) ::
        ("Importing nodes", 30) :: (A ++ (("Importing relationships", 70) ::
          (B ++ ((if t then [("Importing template", (90 : ℚ))] else []) ++
            [("Import completed", 100)]))))) := by
    rw [List.pairwise_cons]
    constructor
    · intro b hb
      rcases List.mem_cons.mp hb with hb | hb
      · rw [hb]; norm_num
      · rcases List.mem_cons.mp hb with hb | hb
        · rw [hb]; norm_num
        · have := (hAT b hb).1
          simp only []
          linarith
    rw [List.pairwise_cons]
    constructor
    · intro b hb
      rcases List.mem_cons.mp hb with hb | hb
      · rw [hb]; norm_num
      · have := (hAT b hb).1
        simp only []
        linarith
    rw [List.pairwise_cons]
    constructor
    · intro b hb
      have := (hAT b hb).1
      simp only []
      linarith
    exact hATpw
  refine ⟨?_, ?_, ?_, ?_⟩
  · exact List.Pairwise.chain' ((List.pairwise_map).mpr hwholepw)
  · intro p hp
    obtain ⟨q, hq, hpq⟩ := List.mem_map.mp hp
    rcases List.mem_cons.mp hq with hq | hq
    · rw [← hpq, hq]; norm_num
    rcases List.mem_cons.mp hq with hq | hq
    · rw [← hpq, hq]; norm_num
    rcases List.mem_cons.mp hq with hq | hq
    · rw [← hpq, hq]; norm_num
    · obtain ⟨h1, h2⟩ := hAT q hq
      rw [← hpq]
      exact ⟨by linarith, h2⟩
  · have hcA : (A.map Prod.snd).count (100 : ℚ) = 0 := by
      rw [List.count_eq_zero]
      intro hmem
      obtain ⟨q, hq, hpq⟩ := List.mem_map.mp hmem
      have := (hA q hq).2
      rw [hpq] at this
      norm_num at this
    have hcB : (B.map Prod.snd).count (100 : ℚ) = 0 := by
      rw [List.count_eq_zero]
      intro hmem
      obtain ⟨q, hq, hpq⟩ := List.mem_map.mp hmem
      have := (hB q hq).2
      rw [hpq] at this
      norm_num at this
    have hcT : (((if t then [("Importing template", (90 : ℚ))] else []) :
        List (String × ℚ)).map Prod.snd).count (100 : ℚ) = 0 := by
      cases t <;> simp
    simp only [List.map_cons, List.map_append, List.count_cons,
      List.count_append, hcA, hcB, hcT]
    norm_num
  · have hsplit : ("Parsing legacy data", (10 : ℚ)) :: ("Creating project", 20) ::
        ("Importing nodes", 30) :: (A ++ (("Importing relationships", 70) ::
          (B ++ ((if t then [("Importing template", (90 : ℚ))] else []) ++
            [("Import completed", 100)]))))
        = (("Parsing legacy data", (10 : ℚ)) :: ("Creating project", 20) ::
          ("Importing nodes", 30) :: (A ++ (("Importing relationships", 70) ::
            (B ++ (if t then [("Importing template", (90 : ℚ))] else []))))) ++
          [("Import completed", 100)] := by
      simp
    rw [hsplit, List.getLast?_concat]

/-- C8: for every completed legacy import run, the emitted percentage
sequence is non-decreasing, stays within `[0, 100]`, contains exactly one
value equal to `100`, and that single `100` is the final emission,
coincident with the single terminal `Import completed` event. -/
theorem c8_progress_monotone_single_terminal (raw : RawLegacyProject)
    (cpf : Option String) (nf ef : Nat → Option String) (tf : Option String)
    (gen : Nat → String) (now : String) (r : ImportResult)
    (ems : List (String × ℚ)) (ws : List LWrite)
    (h : import_legacy_project raw cpf nf ef tf gen now
      = (Except.ok r, ems, ws)) :
    List.Chain' (· ≤ ·) (ems.map Prod.snd) ∧
    (∀ p ∈ ems.map Prod.snd, 0 ≤ p ∧ p ≤ 100) ∧
    (ems.map Prod.snd).count 100 = 1 ∧
    ems.getLast? = some ("Import completed", 100) := by
  unfold import_legacy_project at h
  cases hp : parseLegacyProject raw with
  | error e => rw [hp] at h; exact absurd h (by simp)
  | ok lp =>
    rw [hp] at h
    cases hcpf : cpf with
    | some msg => rw [hcpf] at h; exact absurd h (by simp)
    | none =>
      rw [hcpf] at h
      simp only [Prod.mk.injEq] at h
      obtain ⟨-, hems, -⟩ := h
      obtain ⟨Δn, hΔn, hmemN, hpwN⟩ := importNodesGo_emissions_spec nf gen
        (extract_nodes_and_edges lp).1.length
        (40 / (max (extract_nodes_and_edges lp).1.length 1 : ℚ))
        (by positivity) (extract_nodes_and_edges lp).1 0
        (initialLegAcc (gen 0)
          (if lp.name ≠ "" then lp.name else "Imported Project " ++ now) lp.id)
      obtain ⟨Δe, hΔe, hmemE, hpwE⟩ := importEdgesGo_emissions_spec ef gen
        (extract_nodes_and_edges lp).2.length
        (20 / (max (extract_nodes_and_edges lp).2.length 1 : ℚ))
        (by positivity) (extract_nodes_and_edges lp).2 0
        (resetEmissions (importNodesGo nf gen
          (extract_nodes_and_edges lp).1.length
          (40 / (max (extract_nodes_and_edges lp).1.length 1 : ℚ))
          (extract_nodes_and_edges lp).1 0
          (initialLegAcc (gen 0)
            (if lp.name ≠ "" then lp.name else "Imported Project " ++ now)
            lp.id)))
      rw [show (initialLegAcc (gen 0)
          (if lp.name ≠ "" then lp.name else "Imported Project " ++ now)
          lp.id).emissions = [] from rfl, List.nil_append] at hΔn
      rw [show ∀ a : LegAcc, (resetEmissions a).emissions = []
          from fun _ => rfl, List.nil_append] at hΔe
      refine assembled_progress_props Δn Δe lp.template.isSome ems ?_ hpwN ?_
        hpwE ?_
      · intro p hp'
        obtain ⟨j, -, hjl, hv⟩ := hmemN p hp'
        have hb := progress_value_bounds 30 40 (by norm_num)
          (extract_nodes_and_edges lp).1.length j (by omega)
        rw [hv]
        exact ⟨hb.1, by linarith [hb.2]⟩
      · intro p hp'
        obtain ⟨j, -, hjl, hv⟩ := hmemE p hp'
        have hb := progress_value_bounds 70 20 (by norm_num)
          (extract_nodes_and_edges lp).2.length j (by omega)
        rw [hv]
        exact ⟨hb.1, by linarith [hb.2]⟩
      · rw [← hems, hΔn, hΔe]

/-- C4, counterexample.  `rawBad` holds one well-formed node, one node
whose `data` has no `name`, and a well-formed edge.  The claim says the bad
record is accumulated as a non-fatal diagnostic and the other nodes are
still imported; instead `LegacyProject(**legacy_data)` raises
`ValidationError` for the whole document at line 46, BEFORE any progress
update or write: the import aborts with zero nodes imported and zero
emitted events. -/
theorem c4_malformed_node_aborts_whole_import_counterexample :
    import_legacy_project rawBad none (fun _ => none) (fun _ => none) none
      genW "2024-01-01"
      = (Except.error "data.name: Field required", [], []) := by
  rfl

/-- C4, amended: a node record that fails schema validation aborts the
ENTIRE legacy import at parse time — no node is imported, no event emitted,
no diagnostic-and-continue.  Per-record resilience exists only for nodes
that parse successfully: a graph-store failure while importing one parsed
node (`nf i`) is appended to the errors list and processing continues, so
the processed count equals the number of non-failing nodes and the error
list grows by the number of failing ones. -/
theorem c4_validation_aborts_write_failure_continues :
    (∀ (raw : RawLegacyProject) (cpf : Option String)
        (nf ef : Nat → Option String) (tf : Option String)
        (gen : Nat → String) (now : String) (e : String),
        parseLegacyProject raw = Except.error e →
        import_legacy_project raw cpf nf ef tf gen now
          = (Except.error e, [], [])) ∧
    (∀ (nf : Nat → Option String) (gen : Nat → String) (n : Nat) (ppn : ℚ)
        (nodes : List LegacyNode) (i : Nat) (acc : LegAcc),
        (importNodesGo nf gen n ppn nodes i acc).processed_nodes
          = acc.processed_nodes + succCount nf i nodes.length ∧
        (importNodesGo nf gen n ppn nodes i acc).errors.length
          = acc.errors.length + failCount nf i nodes.length) := by
  constructor
  · intro raw cpf nf ef tf gen now e hpe
    unfold import_legacy_project
    rw [hpe]
  · intro nf gen n ppn nodes
    induction nodes with
    | nil =>
      intro i acc
      simp [importNodesGo, succCount, failCount]
    | cons nd rest ih =>
      intro i acc
      simp only [importNodesGo]
      cases hnf : nf i with
      | some msg =>
        constructor
        · rw [(ih (i + 1) _).1]
          simp [succCount, hnf]
        · rw [(ih (i + 1) _).2]
          simp only [List.length_cons]
          simp [failCount, hnf, List.length_append]
          omega
      | none =>
        constructor
        · rw [(ih (i + 1) _).1]
          simp [succCount, hnf]
          omega
        · rw [(ih (i + 1) _).2]
          simp [failCount, hnf]

/-- C4, witness: the amended theorem's first part at the concrete malformed
document `rawBad` (the parse-failure hypothesis discharged by computation),
and its second part at the concrete parsed nodes `[lnodeA, lnodeB]` with
the oracle `nfW` failing exactly node 0. -/
theorem c4_validation_aborts_write_failure_continues_witness :
    import_legacy_project rawBad none (fun _ => none) (fun _ => none) none
        genW "2024-01-01" = (Except.error "data.name: Field required", [], []) ∧
    ((importNodesGo nfW genW 2 20 [lnodeA, lnodeB] 0 {}).processed_nodes
        = ({} : LegAcc).processed_nodes + succCount nfW 0 2 ∧
      (importNodesGo nfW genW 2 20 [lnodeA, lnodeB] 0 {}).errors.length
        = ({} : LegAcc).errors.length + failCount nfW 0 2) :=
  ⟨c4_validation_aborts_write_failure_continues.1 rawBad none (fun _ => none)
      (fun _ => none) none genW "2024-01-01" "data.name: Field required"
      (by rfl),
   c4_validation_aborts_write_failure_continues.2 nfW genW 2 20
     [lnodeA, lnodeB] 0 {}⟩

/-- C8, witness: the progress theorem applied to the completed concrete run
of `rawGood` with node 0 failing its write: the emitted list is `emsW`,
whose percentages are `10, 20, 30, 70, 70, 90, 100`. -/
theorem c8_progress_monotone_single_terminal_witness :
    List.Chain' (· ≤ ·) (emsW.map Prod.snd) ∧
    (∀ p ∈ emsW.map Prod.snd, 0 ≤ p ∧ p ≤ 100) ∧
    (emsW.map Prod.snd).count 100 = 1 ∧
    emsW.getLast? = some ("Import completed", 100) :=
  c8_progress_monotone_single_terminal rawGood none nfW (fun _ => none) none
    genW "2024-01-01" rW emsW wsW (by with_unfolding_all rfl)

end Pwnflow
